import Mathlib

/-!
# PolicyLens — verification of the core compliance pipeline

Shallow embedding of the PolicyLens backend (transaction evaluation,
composite risk scoring, policy chunking, policy-change sentinel, batch
re-evaluation) together with theorems settling the frozen claims about it.

Numeric values that are Python floats in the source are modelled as
rationals (`ℚ`); Python's `round(x, n)` (round-half-to-even at `n` decimal
digits) is modelled by `roundHE`/`round3`/`round4` below.
-/

namespace PolicyLens

/-- Round-half-to-even of a rational to an integer, as Python's `round`
behaves on exact values: nearest integer, ties going to the even one. -/
def roundHE (x : ℚ) : ℤ :=
  if x - ⌊x⌋ < 1/2 then ⌊x⌋
  else if 1/2 < x - ⌊x⌋ then ⌊x⌋ + 1
  else if ⌊x⌋ % 2 = 0 then ⌊x⌋ else ⌊x⌋ + 1

/-- Python's `round(x, 3)`. -/
def round3 (x : ℚ) : ℚ := (roundHE (1000 * x) : ℚ) / 1000

/-- Python's `round(x, 4)`. -/
def round4 (x : ℚ) : ℚ := (roundHE (10000 * x) : ℚ) / 10000

theorem roundHE_nonneg {x : ℚ} (hx : 0 ≤ x) : 0 ≤ roundHE x := by
  have hf : (0 : ℤ) ≤ ⌊x⌋ := Int.floor_nonneg.mpr hx
  rw [roundHE]
  split_ifs <;> omega

theorem roundHE_le_of_le {x : ℚ} {n : ℤ} (hx : x ≤ n) : roundHE x ≤ n := by
  have hf : ⌊x⌋ ≤ n := by
    have := Int.floor_le_floor (α := ℚ) hx
    rwa [Int.floor_intCast] at this
  have hfx : (⌊x⌋ : ℚ) ≤ x := Int.floor_le x
  rw [roundHE]
  split_ifs with h1 h2 h3
  · exact hf
  · -- x - ⌊x⌋ ≥ 1/2, so ⌊x⌋ < n
    have hlt : (⌊x⌋ : ℚ) < n := by linarith
    have : ⌊x⌋ < n := by exact_mod_cast hlt
    omega
  · exact hf
  · have hlt : (⌊x⌋ : ℚ) < n := by linarith
    have : ⌊x⌋ < n := by exact_mod_cast hlt
    omega

theorem round3_mem_unit {x : ℚ} (h0 : 0 ≤ x) (h1 : x ≤ 1) :
    0 ≤ round3 x ∧ round3 x ≤ 1 := by
  have ha : (0 : ℤ) ≤ roundHE (1000 * x) := roundHE_nonneg (by linarith)
  have hb : roundHE (1000 * x) ≤ (1000 : ℤ) :=
    roundHE_le_of_le (by push_cast; linarith)
  constructor
  · unfold round3
    positivity
  · unfold round3
    rw [div_le_one (by norm_num)]
    exact_mod_cast hb

/-- Helper to evaluate `⌊x⌋` on concrete rationals. -/
theorem floor_eq_of_bounds (x : ℚ) (z : ℤ) (h1 : (z : ℚ) ≤ x) (h2 : x < z + 1) :
    ⌊x⌋ = z := by
  rw [Int.floor_eq_iff]
  exact ⟨h1, by exact_mod_cast h2⟩

/-! ## Configuration (`config.py`) -/

/-- The configurable settings the core reads (`config.py`).  Defaults:
`chunk_size = 600`, `chunk_overlap = 100`, `high_risk_threshold = 0.75`,
`medium_risk_threshold = 0.45`. -/
structure Settings where
  chunk_size : ℕ := 600
  chunk_overlap : ℕ := 100
  top_k_results : ℕ := 5
  high_risk_threshold : ℚ := 3/4
  medium_risk_threshold : ℚ := 9/20

def defaultSettings : Settings := {}

/-! ## Transactions and policy context (`models.py`, `llm_service.py`) -/

/-- A transaction, as consumed by the LLM service (dict fields of
`Transaction.model_dump()`); `amount` is a `ℚ` standing for the float. -/
structure Transaction where
  transaction_id : String
  amount : ℚ
  currency : String
  sender : String
  receiver : String
  sender_country : Option String := none
  receiver_country : Option String := none
  description : Option String := none
deriving DecidableEq

/-- One retrieved policy chunk as handed to the LLM service
(`search_similar_policies` output dict).  The source dict's `section` key
is named `sectionLabel` here because `section` is reserved in Lean. -/
structure PolicyHit where
  chunk_id : String
  doc_id : String
  text : String
  doc_title : String
  sectionLabel : Option String := none
  source : String
  topic : String
  version : String
  relevance_score : ℚ
deriving DecidableEq

/-- The dict returned by `LLMService.evaluate_transaction` /
`_fallback_evaluation`: verdict and risk level are strings at this layer
(the engine parses them into enums later). -/
structure LLMResult where
  verdict : String
  risk_level : String
  risk_score : ℚ
  reasoning : String
  confidence : ℚ
deriving DecidableEq

/-- The hard-coded high-risk country list of `_fallback_evaluation`. -/
def highRiskCountries : List String := ["North Korea", "Iran", "Syria"]

/-- Python's `transaction.get('sender_country') in high_risk_countries`:
a missing country (`None`) is never in the list. -/
def inHighRisk (c : Option String) : Bool :=
  match c with
  | none => false
  | some s => highRiskCountries.contains s

/-- The `+= 0.2` contribution for the top retrieved chunk's relevance
(`if policy_context and policy_context[0]['relevance_score'] > 0.8`). -/
def topRelevanceBonus (ctx : List PolicyHit) : ℚ :=
  match ctx with
  | [] => 0
  | p :: _ => if p.relevance_score > 8/10 then 2/10 else 0

theorem topRelevanceBonus_nonneg (ctx : List PolicyHit) :
    0 ≤ topRelevanceBonus ctx := by
  unfold topRelevanceBonus
  cases ctx with
  | nil => norm_num
  | cons p _ => dsimp only; split <;> norm_num

/-- `LLMService._fallback_evaluation` (`llm_service.py:223-272`): the
rule-based scoring used when the LLM client is unconfigured or the LLM
call fails.  The reasoning text's f-string interpolation is abstracted to
a fixed label (no claim concerns its content). -/
def fallbackEvaluation (st : Settings) (tx : Transaction)
    (policy_context : List PolicyHit) : LLMResult :=
  let r1 : ℚ := if tx.amount > 10000 then 3/10 else 0
  let r2 : ℚ := r1 + (if tx.amount > 50000 then 2/10 else 0)
  let r3 : ℚ := r2 + (if inHighRisk tx.sender_country then 4/10 else 0)
  let r4 : ℚ := r3 + (if inHighRisk tx.receiver_country then 4/10 else 0)
  let r5 : ℚ := r4 + topRelevanceBonus policy_context
  let risk_score : ℚ := min r5 1
  let vr : String × String :=
    if risk_score ≥ st.high_risk_threshold then ("FLAG", "HIGH")
    else if risk_score ≥ st.medium_risk_threshold then ("NEEDS_REVIEW", "MEDIUM")
    else ("ACCEPTABLE", "LOW")
  { verdict := vr.1
    risk_level := vr.2
    risk_score := risk_score
    reasoning := "Rule-based evaluation"
    confidence := 6/10 }

/-- The sum of the five fallback risk contributions, written as the spec
writes it (one indicator term per condition). -/
def fallbackRawSum (tx : Transaction) (policy_context : List PolicyHit) : ℚ :=
  (if tx.amount > 10000 then (3/10 : ℚ) else 0)
  + (if tx.amount > 50000 then (2/10 : ℚ) else 0)
  + (if inHighRisk tx.sender_country then (4/10 : ℚ) else 0)
  + (if inHighRisk tx.receiver_country then (4/10 : ℚ) else 0)
  + topRelevanceBonus policy_context

theorem fallbackRawSum_nonneg (tx : Transaction) (ctx : List PolicyHit) :
    0 ≤ fallbackRawSum tx ctx := by
  have h5 := topRelevanceBonus_nonneg ctx
  unfold fallbackRawSum
  split_ifs <;> linarith

/-- Claim C1 — For every transaction, retrieved policy context and
configuration, the fallback evaluation's risk score equals the clamp to
[0,1] of the sum of the five rule contributions (0.3 for amount > 10000,
a further 0.2 for amount > 50000, 0.4 each for sender/receiver country
in the high-risk set, 0.2 for top chunk relevance > 0.8); the verdict and
risk level follow the configured thresholds (score ≥ high → FLAG/HIGH,
score ≥ medium → NEEDS_REVIEW/MEDIUM, else ACCEPTABLE/LOW); confidence is
exactly 0.6; and the evaluation is a pure function of these inputs (two
calls with equal inputs give equal outputs). -/
theorem fallback_evaluation_spec (st : Settings) (tx : Transaction)
    (ctx : List PolicyHit) :
    (fallbackEvaluation st tx ctx).risk_score
        = max 0 (min (fallbackRawSum tx ctx) 1)
    ∧ ((fallbackEvaluation st tx ctx).verdict,
        (fallbackEvaluation st tx ctx).risk_level)
        = (if (fallbackEvaluation st tx ctx).risk_score ≥ st.high_risk_threshold
            then ("FLAG", "HIGH")
           else if (fallbackEvaluation st tx ctx).risk_score ≥ st.medium_risk_threshold
            then ("NEEDS_REVIEW", "MEDIUM")
           else ("ACCEPTABLE", "LOW"))
    ∧ (fallbackEvaluation st tx ctx).confidence = 6/10
    ∧ (∀ tx' ctx', tx' = tx → ctx' = ctx →
        fallbackEvaluation st tx' ctx' = fallbackEvaluation st tx ctx) := by
  have hclamp : max 0 (min (fallbackRawSum tx ctx) 1)
      = min (fallbackRawSum tx ctx) 1 := by
    rw [max_eq_right]
    exact le_min (fallbackRawSum_nonneg tx ctx) (by norm_num)
  refine ⟨?_, ?_, rfl, ?_⟩
  · rw [hclamp]
    simp only [fallbackEvaluation, fallbackRawSum]
  · simp only [fallbackEvaluation]
  · intro tx' ctx' h1 h2
    rw [h1, h2]

end PolicyLens

namespace PolicyLens

/-! ## Decision model and the evaluation engine
(`models.py`, `compliance_engine.py`, `milvus_service.py`) -/

inductive DecisionVerdict
  | flag
  | needs_review
  | acceptable
deriving DecidableEq

inductive RiskLevel
  | high
  | medium
  | low
  | acceptable
deriving DecidableEq

/-- ASCII lower-casing of one character (`str.lower()` on the ASCII
verdict/risk-level strings the pipeline passes around). -/
def lowerChar (c : Char) : Char :=
  if 'A' ≤ c ∧ c ≤ 'Z' then Char.ofNat (c.toNat + 32) else c

/-- `s.lower()` for the ASCII strings this code compares. -/
def lowerStr (s : String) : String := ⟨s.data.map lowerChar⟩

/-- `DecisionVerdict(s.lower())`: raises (here: `none`) on any other string. -/
def parseVerdict (s : String) : Option DecisionVerdict :=
  if lowerStr s = "flag" then some .flag
  else if lowerStr s = "needs_review" then some .needs_review
  else if lowerStr s = "acceptable" then some .acceptable
  else none

/-- `RiskLevel(s.lower())`: raises (here: `none`) on any other string. -/
def parseRiskLevel (s : String) : Option RiskLevel :=
  if lowerStr s = "high" then some .high
  else if lowerStr s = "medium" then some .medium
  else if lowerStr s = "low" then some .low
  else if lowerStr s = "acceptable" then some .acceptable
  else none

/-- One hit of `milvus_service.search_similar_cases` (dict shape). -/
structure CaseSearchHit where
  case_id : String
  transaction_id : String
  decision : String
  reasoning : String
  risk_score : ℚ
  timestamp : String
  similarity_score : ℚ
deriving DecidableEq

structure PolicyCitation where
  doc_id : String
  doc_title : String
  sectionLabel : Option String
  text : String
  relevance_score : ℚ
  version : String
deriving DecidableEq

structure SimilarCase where
  case_id : String
  transaction_id : String
  similarity_score : ℚ
  decision : DecisionVerdict
  reasoning : String
  timestamp : String
deriving DecidableEq

structure ComplianceDecision where
  transaction_id : String
  verdict : DecisionVerdict
  risk_level : RiskLevel
  risk_score : ℚ
  reasoning : String
  policy_citations : List PolicyCitation
  similar_cases : List SimilarCase
  confidence : ℚ
deriving DecidableEq

/-- `MilvusService._get_demo_policies`: the canned policy hits returned by
`search_similar_policies` when Milvus is not connected. -/
def demoPolicies : List PolicyHit :=
  [ { chunk_id := "demo_chunk_1", doc_id := "demo_doc_aml"
      text := "Transactions exceeding USD 10,000 must be reported to the compliance team within 24 hours. Enhanced due diligence is required for amounts above USD 50,000."
      doc_title := "AML Transaction Monitoring Guidelines"
      sectionLabel := some "Transaction Thresholds"
      source := "internal", topic := "aml", version := "1.0"
      relevance_score := 92/100 },
    { chunk_id := "demo_chunk_2", doc_id := "demo_doc_sanctions"
      text := "Transactions involving sanctioned jurisdictions (Iran, North Korea, Syria, Crimea) are prohibited without explicit regulatory approval. All transactions must be screened against OFAC sanctions lists."
      doc_title := "Sanctions Compliance Policy"
      sectionLabel := some "Prohibited Jurisdictions"
      source := "ofac", topic := "sanctions", version := "2.1"
      relevance_score := 88/100 },
    { chunk_id := "demo_chunk_3", doc_id := "demo_doc_kyc"
      text := "Customer verification must include: government-issued ID, proof of address, and beneficial ownership disclosure for entities. Enhanced KYC is mandatory for high-risk customers and PEPs."
      doc_title := "Know Your Customer (KYC) Requirements"
      sectionLabel := some "Identity Verification"
      source := "internal", topic := "kyc", version := "1.5"
      relevance_score := 75/100 } ]

/-- `MilvusService._get_demo_cases`: the canned case hits returned by
`search_similar_cases` when Milvus is not connected. -/
def demoCases : List CaseSearchHit :=
  [ { case_id := "case_001", transaction_id := "TXN_DEMO_001"
      decision := "flag"
      reasoning := "Large transaction to high-risk jurisdiction without proper documentation"
      risk_score := 87/100, timestamp := "2025-11-15T10:30", similarity_score := 91/100 },
    { case_id := "case_002", transaction_id := "TXN_DEMO_002"
      decision := "acceptable"
      reasoning := "Standard transaction below threshold with verified parties"
      risk_score := 12/100, timestamp := "2025-11-20T14:15", similarity_score := 73/100 } ]

/-- The outcomes of the engine's external calls for one evaluation:
`connected` is `milvus_service.connected`; the three `Except`s are the
outcomes of the embedding call, the two Milvus searches (when connected),
and `llm` is the reasoning gateway outcome (`error` covering both an
unconfigured client and an exhausted-retries call failure, which the LLM
service recovers by falling back). -/
structure EvalEnv where
  connected : Bool
  embed : Except String (List ℚ)
  policySearch : Except String (List PolicyHit)
  caseSearch : Except String (List CaseSearchHit)
  llm : Except String LLMResult

inductive EngineEvent
  | assembled
  | caseWrite
deriving DecidableEq

/-- The observable outcome of one `ComplianceEngine.evaluate_transaction`
call: the returned decision (or the propagated error), the number of
actual case-store insertions performed, and the ordered trace of
decision-assembly and case-write events. -/
structure EngineRun where
  result : Except String ComplianceDecision
  writes : ℕ
  events : List EngineEvent

def isOk : Except ε α → Bool
  | .ok _ => true
  | .error _ => false

/-- `PolicyCitation(...)` construction in the engine: the excerpt is
truncated to 500 characters. -/
def toCitation (p : PolicyHit) : PolicyCitation :=
  { doc_id := p.doc_id, doc_title := p.doc_title
    sectionLabel := p.sectionLabel, text := p.text.take 500
    relevance_score := p.relevance_score, version := p.version }

/-- Fallible elementwise mapping: the first failing element aborts the
whole construction (a raised exception in a Python list comprehension). -/
def mapOption (f : α → Option β) : List α → Option (List β)
  | [] => some []
  | a :: l =>
    match f a, mapOption f l with
    | some b, some bs => some (b :: bs)
    | _, _ => none

theorem mapOption_isSome {f : α → Option β} {l : List α}
    (h : ∀ a ∈ l, (f a).isSome) : (mapOption f l).isSome := by
  induction l with
  | nil => simp [mapOption]
  | cons a t ih =>
    have ha := h a (by simp)
    have ht := ih fun x hx => h x (by simp [hx])
    rw [mapOption]
    rcases hfa : f a with _ | b
    · rw [hfa] at ha; simp [Option.isSome] at ha
    · rcases hmt : mapOption f t with _ | bs
      · rw [hmt] at ht; simp [Option.isSome] at ht
      · simp

/-- `SimilarCase(...)` construction: `DecisionVerdict(case["decision"].lower())`
can raise, so this is fallible. -/
def toSimilarCase (c : CaseSearchHit) : Option SimilarCase :=
  (parseVerdict c.decision).map fun v =>
    { case_id := c.case_id, transaction_id := c.transaction_id
      similarity_score := c.similarity_score, decision := v
      reasoning := c.reasoning, timestamp := c.timestamp }

/-- The decision-assembly part of `ComplianceEngine.evaluate_transaction`
(`compliance_engine.py:29-101`, steps 1-5): embed the transaction text,
retrieve policies and similar cases (canned demo data when Milvus is
disconnected), run the reasoning gateway (falling back on failure), and
assemble the decision.  Any error here aborts the evaluation before the
case insertion. -/
def evaluateDecision (st : Settings) (env : EvalEnv) (tx : Transaction) :
    Except String ComplianceDecision :=
  -- Step 1: embedding
  match env.embed with
  | .error e => .error e
  | .ok _ =>
    -- Step 2: policy retrieval (demo list when not connected)
    match (if env.connected then env.policySearch else .ok demoPolicies) with
    | .error e => .error e
    | .ok relevant_policies =>
      -- Step 3: similar-case retrieval (demo list when not connected)
      match (if env.connected then env.caseSearch else .ok demoCases) with
      | .error e => .error e
      | .ok similar_cases =>
        -- Step 4: reasoning gateway with fallback on failure
        let llm_result :=
          match env.llm with
          | .ok r => r
          | .error _ => fallbackEvaluation st tx relevant_policies
        -- Step 5: assemble the decision (enum parses can raise)
        match mapOption toSimilarCase similar_cases with
        | none => .error "invalid stored case verdict"
        | some similar_case_objects =>
          match parseVerdict llm_result.verdict, parseRiskLevel llm_result.risk_level with
          | some v, some rl =>
            .ok { transaction_id := tx.transaction_id
                  verdict := v
                  risk_level := rl
                  risk_score := llm_result.risk_score
                  reasoning := llm_result.reasoning
                  policy_citations := relevant_policies.map toCitation
                  similar_cases := similar_case_objects
                  confidence := llm_result.confidence }
          | _, _ => .error "invalid verdict or risk level"

/-- `ComplianceEngine.evaluate_transaction` (`compliance_engine.py:29-125`):
assemble the decision (steps 1-5 above), then — step 6 — insert one
compliance case into the case store.  The uuid trace id and wall-clock
latency are abstracted away; the insertion is an actual store write only
when Milvus is connected (`insert_compliance_case` returns without
writing otherwise), and an error anywhere in steps 1-5 propagates with
no write performed. -/
def evaluateTransaction (st : Settings) (env : EvalEnv) (tx : Transaction) :
    EngineRun :=
  match evaluateDecision st env tx with
  | .error e => ⟨.error e, 0, []⟩
  | .ok d =>
      ⟨.ok d, if env.connected then 1 else 0,
       [.assembled] ++ (if env.connected then [.caseWrite] else [])⟩

end PolicyLens

namespace PolicyLens

theorem fallback_parseable (st : Settings) (tx : Transaction) (ctx : List PolicyHit) :
    (parseVerdict (fallbackEvaluation st tx ctx).verdict).isSome
    ∧ (parseRiskLevel (fallbackEvaluation st tx ctx).risk_level).isSome := by
  simp only [fallbackEvaluation]
  split_ifs <;> exact ⟨by decide, by decide⟩

/-- Sample transaction used by concrete witnesses/counterexamples. -/
def sampleTx : Transaction :=
  { transaction_id := "TX1", amount := 500, currency := "USD"
    sender := "Alice", receiver := "Bob" }

/-- A well-formed reasoning-gateway result. -/
def goodLLM : LLMResult :=
  { verdict := "FLAG", risk_level := "HIGH", risk_score := 9/10
    reasoning := "sanctions exposure", confidence := 8/10 }

/-- Claim C9 (amended) — With a connected case store, each call to
`evaluate_transaction` that returns a decision performs exactly one
case-store write, and the write event comes only after the decision is
fully assembled; an error in the embedding step or either retrieval step
propagates to the caller with zero writes; a reasoning-gateway failure is
recovered via the fallback and still yields a decision with exactly one
write.  With a disconnected case store the insert call is a no-op, so a
decision is returned with zero writes. -/
theorem evaluate_transaction_write_discipline (st : Settings) (env : EvalEnv)
    (tx : Transaction) :
    (env.connected = true →
      ∀ d, (evaluateTransaction st env tx).result = .ok d →
        (evaluateTransaction st env tx).writes = 1
        ∧ (evaluateTransaction st env tx).events
            = [EngineEvent.assembled, EngineEvent.caseWrite])
    ∧ (env.connected = false → (evaluateTransaction st env tx).writes = 0)
    ∧ (∀ e, env.embed = .error e →
        evaluateTransaction st env tx = ⟨.error e, 0, []⟩)
    ∧ (∀ e v, env.connected = true → env.embed = .ok v →
        env.policySearch = .error e →
        evaluateTransaction st env tx = ⟨.error e, 0, []⟩)
    ∧ (∀ e v pols, env.connected = true → env.embed = .ok v →
        env.policySearch = .ok pols → env.caseSearch = .error e →
        evaluateTransaction st env tx = ⟨.error e, 0, []⟩)
    ∧ (∀ e v pols hits, env.embed = .ok v →
        (if env.connected then env.policySearch else .ok demoPolicies) = .ok pols →
        (if env.connected then env.caseSearch else .ok demoCases) = .ok hits →
        (∀ c ∈ hits, (toSimilarCase c).isSome) →
        env.llm = .error e →
        (∃ d, (evaluateTransaction st env tx).result = .ok d)
        ∧ (evaluateTransaction st env tx).writes
            = (if env.connected then 1 else 0)) := by
  refine ⟨?_, ?_, ?_, ?_, ?_, ?_⟩
  · intro hconn d hd
    rcases hdec : evaluateDecision st env tx with e | d'
    · simp [evaluateTransaction, hdec] at hd
    · simp [evaluateTransaction, hdec, hconn] at hd ⊢
  · intro hconn
    rcases hdec : evaluateDecision st env tx with e | d' <;>
      simp [evaluateTransaction, hdec, hconn]
  · intro e he
    simp [evaluateTransaction, evaluateDecision, he]
  · intro e v hconn hv hps
    simp [evaluateTransaction, evaluateDecision, hconn, hv, hps]
  · intro e v pols hconn hv hps hcs
    simp [evaluateTransaction, evaluateDecision, hconn, hv, hps, hcs]
  · intro e v pols hits hv hps hcs hparse hllm
    have hok : ∃ d, evaluateDecision st env tx = .ok d := by
      rcases hmo : mapOption toSimilarCase hits with _ | objs
      · have hs := mapOption_isSome hparse
        rw [hmo] at hs
        simp [Option.isSome] at hs
      · have hp := fallback_parseable st tx pols
        rcases hpv : parseVerdict (fallbackEvaluation st tx pols).verdict with _ | pv
        · rw [hpv] at hp
          simp [Option.isSome] at hp
        · rcases hpl : parseRiskLevel (fallbackEvaluation st tx pols).risk_level with _ | pl
          · rw [hpl] at hp
            simp [Option.isSome] at hp
          · simp only [evaluateDecision, hv, hps, hcs, hllm, hmo, hpv, hpl]
            exact ⟨_, rfl⟩
    obtain ⟨d, hd⟩ := hok
    simp [evaluateTransaction, hd]

/-- Witness for `evaluate_transaction_write_discipline`: a connected store
with a failed reasoning gateway still yields exactly one case write. -/
theorem evaluate_transaction_write_discipline_witness :
    (evaluateTransaction defaultSettings
      ⟨true, .ok [1], .ok [], .ok [], .error "gateway timeout"⟩ sampleTx).writes = 1 := by
  have h := (evaluate_transaction_write_discipline defaultSettings
      ⟨true, .ok [1], .ok [], .ok [], .error "gateway timeout"⟩ sampleTx).2.2.2.2.2
  have h2 := h "gateway timeout" [1] [] [] rfl rfl rfl (by intro c hc; simp at hc) rfl
  simpa using h2.2

/-- Claim C9 (counterexample) — With Milvus disconnected, the engine still
returns a decision (built from the canned demo policies/cases) while the
case insertion is a no-op: a returned decision with zero case-store
writes, contradicting "exactly one case-store write when it returns a
decision". -/
theorem evaluate_transaction_disconnected_no_write :
    (isOk (evaluateTransaction defaultSettings
        ⟨false, .ok [1], .ok [], .ok [], .ok goodLLM⟩ sampleTx).result = true)
    ∧ (evaluateTransaction defaultSettings
        ⟨false, .ok [1], .ok [], .ok [], .ok goodLLM⟩ sampleTx).writes = 0 := by
  constructor <;> rfl

end PolicyLens

namespace PolicyLens

/-! ## Composite risk scorer (`risk_scorer.py`)

`RiskScorer.calculate_composite_risk` and its helpers.  The Milvus case
search (embedding + `search_cases`) is abstracted as an `Except`-valued
outcome; `_find_similar_cases` swallows any failure of that path with its
own `try/except` and returns `[]`.  The `risk_factors` list, qualitative
confidence label and timestamp of the result dict are omitted — no claim
concerns them — and with dict fields typed, nothing in the remaining body
can raise, so the outer `try/except`'s degraded branch is unreachable. -/

/-- One raw hit of `milvus.search_cases` as `_find_similar_cases` reads
it (`result.get("distance", 0.0)` etc.). -/
structure RawCaseResult where
  case_id : String
  distance : ℚ
  verdict : String
  risk_score : ℚ
  reason : String
deriving DecidableEq

/-- One enriched case produced by `_find_similar_cases`. -/
structure EnrichedCase where
  case_id : String
  similarity_score : ℚ
  verdict : String
  risk_score : ℚ
  reason : String
deriving DecidableEq

/-- The enrichment step: `similarity_score = round(1 - distance, 3)`. -/
def enrichCase (r : RawCaseResult) : EnrichedCase :=
  { case_id := r.case_id
    similarity_score := round3 (1 - r.distance)
    verdict := r.verdict
    risk_score := r.risk_score
    reason := r.reason }

/-- `RiskScorer._find_similar_cases` (`risk_scorer.py:90-135`): `[]` when
Milvus is not connected, `[]` on any failure of the embed/search path
(its own `except` clause), otherwise the enriched hits. -/
def findSimilarCases (connected : Bool)
    (search : Except String (List RawCaseResult)) : List EnrichedCase :=
  if connected then
    match search with
    | .error _ => []
    | .ok rs => rs.map enrichCase
  else []

/-- The accumulation loop of `_calculate_case_risk`:
`(weighted_risk, total_weight)` with per-case weight `similarity ** 2`. -/
def caseWeightedSums (cases : List EnrichedCase) : ℚ × ℚ :=
  cases.foldl (fun acc c =>
    (acc.1 + c.similarity_score ^ 2 * c.risk_score,
     acc.2 + c.similarity_score ^ 2)) (0, 0)

/-- `RiskScorer._calculate_case_risk` (`risk_scorer.py:137-157`). -/
def calculateCaseRisk (cases : List EnrichedCase) : ℚ :=
  if cases = [] then 1/2
  else if (caseWeightedSums cases).2 > 0 then
    (caseWeightedSums cases).1 / (caseWeightedSums cases).2
  else 1/2

/-- `RiskScorer._determine_verdict` (`risk_scorer.py:159-166`). -/
def determineVerdict (score : ℚ) : String :=
  if score ≥ 3/4 then "FLAG"
  else if score ≥ 9/20 then "REVIEW"
  else "CLEAR"

/-- The slice of the compliance-engine result that
`calculate_composite_risk` reads (`policy_analysis.get(...)`). -/
structure PolicyAnalysis where
  risk_score : ℚ
  verdict : String
deriving DecidableEq

structure CompositeRiskResult where
  composite_risk_score : ℚ
  policy_risk_score : ℚ
  case_similarity_risk : ℚ
  verdict : String
  similar_cases_found : ℕ
  similar_cases : List EnrichedCase
deriving DecidableEq

/-- `RiskScorer.calculate_composite_risk` (`risk_scorer.py:22-88`). -/
def calculateCompositeRisk (pa : PolicyAnalysis) (similarity_weight : ℚ)
    (connected : Bool) (search : Except String (List RawCaseResult)) :
    CompositeRiskResult :=
  let policy_risk := pa.risk_score
  let similar_cases := findSimilarCases connected search
  let case_risk := calculateCaseRisk similar_cases
  let composite_score :=
    (1 - similarity_weight) * policy_risk + similarity_weight * case_risk
  { composite_risk_score := round3 composite_score
    policy_risk_score := round3 policy_risk
    case_similarity_risk := round3 case_risk
    verdict := determineVerdict composite_score
    similar_cases_found := similar_cases.length
    similar_cases := similar_cases.take 3 }

/-- Spec-side: the sum of the squared-similarity weights. -/
def simWeightSum (cases : List EnrichedCase) : ℚ :=
  (cases.map (fun c => c.similarity_score ^ 2)).sum

/-- Spec-side: the similarity-squared-weighted sum of stored risk scores. -/
def simWeightedRiskSum (cases : List EnrichedCase) : ℚ :=
  (cases.map (fun c => c.similarity_score ^ 2 * c.risk_score)).sum

theorem caseWeightedSums_aux (cases : List EnrichedCase) (a b : ℚ) :
    cases.foldl (fun acc c =>
        (acc.1 + c.similarity_score ^ 2 * c.risk_score,
         acc.2 + c.similarity_score ^ 2)) (a, b)
      = (a + simWeightedRiskSum cases, b + simWeightSum cases) := by
  induction cases generalizing a b with
  | nil => simp [simWeightedRiskSum, simWeightSum]
  | cons c t ih =>
    simp only [List.foldl_cons, ih, simWeightedRiskSum, simWeightSum, List.map_cons,
      List.sum_cons]
    rw [Prod.mk.injEq]
    exact ⟨by ring, by ring⟩

theorem caseWeightedSums_eq (cases : List EnrichedCase) :
    caseWeightedSums cases = (simWeightedRiskSum cases, simWeightSum cases) := by
  unfold caseWeightedSums
  rw [caseWeightedSums_aux]
  simp

theorem roundHE_eq_of_lt_half (x : ℚ) (z : ℤ) (h1 : (z : ℚ) ≤ x)
    (h2 : x < z + 1/2) : roundHE x = z := by
  have hf : ⌊x⌋ = z := floor_eq_of_bounds x z h1 (by linarith)
  rw [roundHE, hf, if_pos]
  linarith

theorem round3_eq (x : ℚ) (z : ℤ) (h1 : (z : ℚ) ≤ 1000 * x)
    (h2 : 1000 * x < z + 1/2) : round3 x = z / 1000 := by
  rw [round3, roundHE_eq_of_lt_half (1000 * x) z h1 h2]

/-- Claim C3 (amended) — `calculate_composite_risk` returns the composite
score `(1 − w) × p + w × c` rounded to 3 decimal places, where the
case-based risk `c` is the similarity-squared-weighted average of the
similar cases' stored risk scores (when the weight total is positive),
`c = 0.5` for an empty similar-case list, and with zero similar cases the
composite score is `round3 ((1−w)×p + w×0.5)`. -/
theorem composite_risk_formula (pa : PolicyAnalysis) (w : ℚ) (conn : Bool)
    (search : Except String (List RawCaseResult)) :
    (calculateCompositeRisk pa w conn search).composite_risk_score
      = round3 ((1 - w) * pa.risk_score
          + w * calculateCaseRisk (findSimilarCases conn search))
    ∧ calculateCaseRisk [] = 1/2
    ∧ (∀ cases : List EnrichedCase, 0 < simWeightSum cases →
        calculateCaseRisk cases = simWeightedRiskSum cases / simWeightSum cases)
    ∧ (calculateCompositeRisk pa w true (.ok [])).composite_risk_score
        = round3 ((1 - w) * pa.risk_score + w * (1/2)) := by
  refine ⟨rfl, rfl, ?_, rfl⟩
  intro cases hpos
  match cases with
  | [] =>
    simp [simWeightSum] at hpos
  | c :: t =>
    rw [calculateCaseRisk, if_neg (by simp), caseWeightedSums_eq]
    simp only
    rw [if_pos hpos]

/-- Witness for `composite_risk_formula`: a single similar case with
positive similarity weight. -/
theorem composite_risk_formula_witness :
    calculateCaseRisk [⟨"c1", 1/2, "FLAG", 4/5, "r"⟩]
      = simWeightedRiskSum [⟨"c1", 1/2, "FLAG", 4/5, "r"⟩]
        / simWeightSum [⟨"c1", 1/2, "FLAG", 4/5, "r"⟩] := by
  have h := (composite_risk_formula ⟨0, "CLEAR"⟩ (3/10) true (.ok [])).2.2.1
  exact h [⟨"c1", 1/2, "FLAG", 4/5, "r"⟩] (by norm_num [simWeightSum])

/-- Claim C3 (counterexample) — with policy risk 0.123, weight 0.3 and no
similar cases, the code returns `round(0.2361, 3) = 0.236`, not the exact
`(1−w)×p + w×0.5 = 0.2361` the claim states. -/
theorem composite_risk_rounding_counterexample :
    (calculateCompositeRisk ⟨123/1000, "CLEAR"⟩ (3/10) true
        (.ok [])).composite_risk_score = 236/1000
    ∧ (1 - 3/10) * (123/1000 : ℚ) + (3/10) * (1/2) = 2361/10000
    ∧ ((236/1000 : ℚ) ≠ 2361/10000) := by
  refine ⟨?_, by norm_num, by norm_num⟩
  have harg : (1 - 3/10 : ℚ) * (123/1000)
      + (3/10) * calculateCaseRisk (findSimilarCases true (.ok [])) = 2361/10000 := by
    norm_num [calculateCaseRisk, findSimilarCases]
  show round3 ((1 - 3/10 : ℚ) * (123/1000)
      + (3/10) * calculateCaseRisk (findSimilarCases true (.ok []))) = 236/1000
  rw [harg, round3_eq (2361/10000) 236 (by norm_num) (by norm_num)]
  norm_num

theorem findSimilarCases_error_eq (conn : Bool) (e : String) :
    findSimilarCases conn (.error e) = [] := by
  cases conn <;> rfl

/-- Claim C8 (amended) — `calculate_composite_risk` never raises: any
failure of the case-retrieval path is swallowed inside
`_find_similar_cases`, which returns an empty case list, so the call
returns the *normal* result computed with zero similar cases — composite
score `round3 ((1−w)×p + w×0.5)` and case risk 0.5 — identical to the
result for a successful empty search, and *not* the policy-only degraded
result (whose branch is unreachable from a retrieval failure). -/
theorem composite_risk_retrieval_failure (pa : PolicyAnalysis) (w : ℚ)
    (conn : Bool) (e : String) :
    calculateCompositeRisk pa w conn (.error e)
        = calculateCompositeRisk pa w conn (.ok [])
    ∧ (calculateCompositeRisk pa w conn (.error e)).similar_cases_found = 0
    ∧ (calculateCompositeRisk pa w conn (.error e)).composite_risk_score
        = round3 ((1 - w) * pa.risk_score + w * (1/2))
    ∧ (calculateCompositeRisk pa w conn (.error e)).case_similarity_risk
        = round3 (1/2) := by
  have hfe : findSimilarCases conn (.error e) = [] := findSimilarCases_error_eq conn e
  have hfo : findSimilarCases conn (.ok []) = [] := by cases conn <;> rfl
  refine ⟨?_, ?_, ?_, ?_⟩
  · unfold calculateCompositeRisk
    rw [hfe, hfo]
  · simp [calculateCompositeRisk, hfe]
  · simp [calculateCompositeRisk, hfe, calculateCaseRisk]
  · simp [calculateCompositeRisk, hfe, calculateCaseRisk]

/-- Claim C8 (counterexample) — on a case-retrieval failure with policy
risk 0.2 and weight 0.3 the code returns composite 0.29 (the neutral-0.5
blend) and case risk 0.5, not the claimed policy-only degradation
(composite = policy risk = 0.2, case risk 0). -/
theorem composite_risk_degradation_counterexample :
    (calculateCompositeRisk ⟨1/5, "CLEAR"⟩ (3/10) true
        (.error "case search failed")).composite_risk_score = 29/100
    ∧ ((29/100 : ℚ) ≠ 1/5)
    ∧ (calculateCompositeRisk ⟨1/5, "CLEAR"⟩ (3/10) true
        (.error "case search failed")).case_similarity_risk = 1/2
    ∧ ((1/2 : ℚ) ≠ 0) := by
  have hfe : findSimilarCases true (.error "case search failed") = [] := rfl
  refine ⟨?_, by norm_num, ?_, by norm_num⟩
  · show round3 ((1 - 3/10 : ℚ) * (1/5)
        + (3/10) * calculateCaseRisk (findSimilarCases true (.error "case search failed")))
      = 29/100
    rw [hfe]
    have harg : (1 - 3/10 : ℚ) * (1/5) + (3/10) * calculateCaseRisk [] = 29/100 := by
      norm_num [calculateCaseRisk]
    rw [harg, round3_eq (29/100) 290 (by norm_num) (by norm_num)]
    norm_num
  · show round3 (calculateCaseRisk (findSimilarCases true (.error "case search failed"))) = 1/2
    rw [hfe]
    have : calculateCaseRisk [] = 1/2 := rfl
    rw [this, round3_eq (1/2) 500 (by norm_num) (by norm_num)]
    norm_num

end PolicyLens

namespace PolicyLens

theorem fallback_risk_score_eq (st : Settings) (tx : Transaction)
    (ctx : List PolicyHit) :
    (fallbackEvaluation st tx ctx).risk_score = min (fallbackRawSum tx ctx) 1 := by
  simp only [fallbackEvaluation, fallbackRawSum]

/-- The engine copies the reasoning result's `risk_score` and `confidence`
into the assembled decision without any clamping. -/
theorem decision_passthrough (st : Settings) (env : EvalEnv) (tx : Transaction)
    (r : LLMResult) (d : ComplianceDecision)
    (hllm : env.llm = .ok r)
    (hres : (evaluateTransaction st env tx).result = .ok d) :
    d.risk_score = r.risk_score ∧ d.confidence = r.confidence := by
  have hdec : evaluateDecision st env tx = .ok d := by
    rcases h : evaluateDecision st env tx with e | d'
    · simp [evaluateTransaction, h] at hres
    · simp [evaluateTransaction, h] at hres
      subst hres
      rfl
  unfold evaluateDecision at hdec
  rw [hllm] at hdec
  rcases hemb : env.embed with e1 | v <;> rw [hemb] at hdec
  · simp at hdec
  rcases hps : (if env.connected then env.policySearch else Except.ok demoPolicies)
      with e2 | pols <;> rw [hps] at hdec
  · simp at hdec
  rcases hcs : (if env.connected then env.caseSearch else Except.ok demoCases)
      with e3 | hits <;> rw [hcs] at hdec
  · simp at hdec
  dsimp only at hdec
  rcases hmo : mapOption toSimilarCase hits with _ | objs <;> rw [hmo] at hdec
  · simp at hdec
  rcases hpv : parseVerdict r.verdict with _ | pv <;> rw [hpv] at hdec
  · simp at hdec
  rcases hpl : parseRiskLevel r.risk_level with _ | pl <;> rw [hpl] at hdec
  · simp at hdec
  simp only [Except.ok.injEq] at hdec
  subst hdec
  exact ⟨rfl, rfl⟩

theorem simWeightedRiskSum_bounds (cases : List EnrichedCase)
    (h : ∀ c ∈ cases, 0 ≤ c.risk_score ∧ c.risk_score ≤ 1) :
    0 ≤ simWeightedRiskSum cases ∧ simWeightedRiskSum cases ≤ simWeightSum cases := by
  induction cases with
  | nil => simp [simWeightedRiskSum, simWeightSum]
  | cons c t ih =>
    have hc := h c (by simp)
    have ht := ih (fun x hx => h x (by simp [hx]))
    simp only [simWeightedRiskSum, simWeightSum, List.map_cons, List.sum_cons] at ht ⊢
    have hw : (0:ℚ) ≤ c.similarity_score ^ 2 := sq_nonneg _
    constructor
    · have : 0 ≤ c.similarity_score ^ 2 * c.risk_score := mul_nonneg hw hc.1
      linarith [ht.1]
    · have : c.similarity_score ^ 2 * c.risk_score ≤ c.similarity_score ^ 2 := by
        nlinarith [hc.2]
      linarith [ht.2]

theorem calculateCaseRisk_mem_unit (cases : List EnrichedCase)
    (h : ∀ c ∈ cases, 0 ≤ c.risk_score ∧ c.risk_score ≤ 1) :
    0 ≤ calculateCaseRisk cases ∧ calculateCaseRisk cases ≤ 1 := by
  have hb := simWeightedRiskSum_bounds cases h
  unfold calculateCaseRisk
  rw [caseWeightedSums_eq]
  split_ifs with h0 h1
  · norm_num
  · simp only at h1 ⊢
    constructor
    · exact div_nonneg hb.1 (le_of_lt h1)
    · rw [div_le_one h1]
      exact hb.2
  · norm_num

/-- Claim C2 (amended) — The scores the pipeline computes itself lie in
[0,1]: the fallback risk score always; the composite risk score whenever
the policy risk, the similarity weight and every similar case's stored
risk score are in [0,1]; the case-based risk under the same per-case
condition; and a similar case's `similarity_score = round3(1 − distance)`
whenever the search distance is in [0,1].  The decision's `risk_score` and
`confidence`, however, are copied unclamped from the reasoning gateway's
result, so they are in [0,1] exactly when the gateway's values are. -/
theorem scores_in_unit_interval (st : Settings) (tx : Transaction)
    (ctx : List PolicyHit) :
    (0 ≤ (fallbackEvaluation st tx ctx).risk_score
      ∧ (fallbackEvaluation st tx ctx).risk_score ≤ 1)
    ∧ (∀ r : RawCaseResult, 0 ≤ r.distance → r.distance ≤ 1 →
        0 ≤ (enrichCase r).similarity_score ∧ (enrichCase r).similarity_score ≤ 1)
    ∧ (∀ cases : List EnrichedCase,
        (∀ c ∈ cases, 0 ≤ c.risk_score ∧ c.risk_score ≤ 1) →
        0 ≤ calculateCaseRisk cases ∧ calculateCaseRisk cases ≤ 1)
    ∧ (∀ (pa : PolicyAnalysis) (w : ℚ) (conn : Bool)
          (search : Except String (List RawCaseResult)),
        0 ≤ pa.risk_score → pa.risk_score ≤ 1 → 0 ≤ w → w ≤ 1 →
        (∀ c ∈ findSimilarCases conn search, 0 ≤ c.risk_score ∧ c.risk_score ≤ 1) →
        0 ≤ (calculateCompositeRisk pa w conn search).composite_risk_score
        ∧ (calculateCompositeRisk pa w conn search).composite_risk_score ≤ 1)
    ∧ (∀ (env : EvalEnv) (r : LLMResult) (d : ComplianceDecision),
        env.llm = .ok r → 0 ≤ r.risk_score → r.risk_score ≤ 1 →
        (evaluateTransaction st env tx).result = .ok d →
        0 ≤ d.risk_score ∧ d.risk_score ≤ 1) := by
  refine ⟨?_, ?_, ?_, ?_, ?_⟩
  · rw [fallback_risk_score_eq]
    have hraw := fallbackRawSum_nonneg tx ctx
    constructor
    · exact le_min hraw (by norm_num)
    · exact min_le_right _ _
  · intro r h0 h1
    show 0 ≤ round3 (1 - r.distance) ∧ round3 (1 - r.distance) ≤ 1
    exact round3_mem_unit (by linarith) (by linarith)
  · intro cases h
    exact calculateCaseRisk_mem_unit cases h
  · intro pa w conn search hp0 hp1 hw0 hw1 hcases
    have hc := calculateCaseRisk_mem_unit _ hcases
    have harg0 : 0 ≤ (1 - w) * pa.risk_score
        + w * calculateCaseRisk (findSimilarCases conn search) := by
      have := mul_nonneg (by linarith : (0:ℚ) ≤ 1 - w) hp0
      have := mul_nonneg hw0 hc.1
      linarith
    have harg1 : (1 - w) * pa.risk_score
        + w * calculateCaseRisk (findSimilarCases conn search) ≤ 1 := by
      nlinarith [hc.2, hp1, hw0, hw1]
    exact round3_mem_unit harg0 harg1
  · intro env r d hllm h0 h1 hres
    have hpt := decision_passthrough st env tx r d hllm hres
    rw [hpt.1]
    exact ⟨h0, h1⟩

/-- Extracts the assembled decision's risk score (0 when the evaluation
errored); used to state concrete facts about engine runs. -/
def okRiskScore (r : EngineRun) : ℚ :=
  match r.result with
  | .ok d => d.risk_score
  | .error _ => 0

/-- The decision assembled for `sampleTx` against empty retrievals and the
`goodLLM` gateway result. -/
def sampleDecision : ComplianceDecision :=
  { transaction_id := "TX1", verdict := .flag, risk_level := .high
    risk_score := 9/10, reasoning := "sanctions exposure"
    policy_citations := [], similar_cases := [], confidence := 8/10 }

/-- Witness for `scores_in_unit_interval`: a concrete in-range input for
each hypothesis-bearing conjunct. -/
theorem scores_in_unit_interval_witness :
    (0 ≤ (enrichCase ⟨"c1", 1/4, "FLAG", 1/2, "r"⟩).similarity_score
      ∧ (enrichCase ⟨"c1", 1/4, "FLAG", 1/2, "r"⟩).similarity_score ≤ 1)
    ∧ (0 ≤ calculateCaseRisk [⟨"c1", 3/4, "FLAG", 1/2, "r"⟩]
      ∧ calculateCaseRisk [⟨"c1", 3/4, "FLAG", 1/2, "r"⟩] ≤ 1)
    ∧ (0 ≤ (calculateCompositeRisk ⟨1/2, "REVIEW"⟩ (3/10) true
          (.ok [])).composite_risk_score
      ∧ (calculateCompositeRisk ⟨1/2, "REVIEW"⟩ (3/10) true
          (.ok [])).composite_risk_score ≤ 1)
    ∧ (0 ≤ sampleDecision.risk_score ∧ sampleDecision.risk_score ≤ 1) := by
  have h := scores_in_unit_interval defaultSettings sampleTx []
  refine ⟨h.2.1 ⟨"c1", 1/4, "FLAG", 1/2, "r"⟩ (by norm_num) (by norm_num),
    h.2.2.1 [⟨"c1", 3/4, "FLAG", 1/2, "r"⟩] ?_,
    h.2.2.2.1 ⟨1/2, "REVIEW"⟩ (3/10) true (.ok []) (by norm_num) (by norm_num)
      (by norm_num) (by norm_num) ?_, ?_⟩
  · intro c hc
    simp at hc
    rw [hc]
    norm_num
  · intro c hc
    simp [findSimilarCases] at hc
  · exact h.2.2.2.2 ⟨true, .ok [1], .ok [], .ok [], .ok goodLLM⟩ goodLLM
      sampleDecision rfl (by norm_num [goodLLM]) (by norm_num [goodLLM]) rfl

/-- Claim C2 (counterexample) — a reasoning-gateway result with
`risk_score = 1.5` flows unclamped into the assembled decision, and a
search distance of 1.5 yields `similarity_score = −0.5`: both outside
[0,1]. -/
theorem scores_in_unit_interval_counterexample :
    okRiskScore (evaluateTransaction defaultSettings
        ⟨true, .ok [1], .ok [], .ok [],
         .ok ⟨"FLAG", "HIGH", 3/2, "r", 8/10⟩⟩ sampleTx) = 3/2
    ∧ ¬((3/2 : ℚ) ≤ 1)
    ∧ (enrichCase ⟨"c1", 3/2, "FLAG", 1/2, "r"⟩).similarity_score = -(1/2)
    ∧ ¬(0 ≤ -(1/2 : ℚ)) := by
  refine ⟨rfl, by norm_num, ?_, by norm_num⟩
  show round3 (1 - 3/2) = -(1/2)
  rw [show (1 - 3/2 : ℚ) = -(1/2) by norm_num,
    round3_eq (-(1/2)) (-500) (by norm_num) (by norm_num)]
  norm_num

end PolicyLens

namespace PolicyLens

/-! ## Case storage for learning (`risk_scorer.py:271-330`, `:90-111`) -/

/-- A case record as stored in the `compliance_cases` collection by
`store_case_for_learning` (embedding vector and metadata dict omitted —
no claim concerns them). -/
structure StoredCase where
  case_id : String
  verdict : String
  risk_score : ℚ
  reason : String
deriving DecidableEq

/-- `RiskScorer.store_case_for_learning`: returns the Python return value
together with the case inserted into the store, if any.  The embedding
call and the Milvus insert are abstracted as `Except`-valued outcomes;
any exception is caught and turned into `False` with nothing stored. -/
def storeCaseForLearning (connected : Bool)
    (embedOutcome : Except String (List ℚ)) (insertOutcome : Except String Unit)
    (decision_id : String) (verdict : String) (risk_score : ℚ)
    (reasoning : String) : Bool × Option StoredCase :=
  if ¬connected then (false, none)
  else if ¬(verdict = "FLAG" ∨ verdict = "REVIEW") then (true, none)
  else
    match embedOutcome with
    | .error _ => (false, none)
    | .ok _ =>
      match insertOutcome with
      | .error _ => (false, none)
      | .ok _ => (true, some ⟨decision_id, verdict, risk_score, reasoning.take 500⟩)

/-- The Milvus `search_cases` call as `_find_similar_cases` issues it
(`filter_expr = "verdict in ['FLAG', 'REVIEW']"`): only stored cases with
those verdicts are candidates; the ANN ranking is abstracted as store
order with an oracle distance per case. -/
def searchCasesFiltered (store : List StoredCase) (dist : StoredCase → ℚ)
    (top_k : ℕ) : List RawCaseResult :=
  ((store.filter fun c => c.verdict == "FLAG" || c.verdict == "REVIEW").take top_k).map
    fun c => ⟨c.case_id, dist c, c.verdict, c.risk_score, c.reason⟩

/-- Claim C10 (amended) — With a connected case store, a call to
`store_case_for_learning` with a verdict outside {FLAG, REVIEW} returns
True and inserts nothing; with a disconnected store any call returns
False (not True) and also inserts nothing.  A case is inserted only when
the verdict is FLAG or REVIEW, so the precedent memory only accumulates
such cases, and the similarity search restricts its query to cases with
those verdicts. -/
theorem store_case_verdict_gate (emb : Except String (List ℚ))
    (ins : Except String Unit) (did verdict reasoning : String) (risk : ℚ) :
    (¬(verdict = "FLAG" ∨ verdict = "REVIEW") →
      storeCaseForLearning true emb ins did verdict risk reasoning = (true, none))
    ∧ storeCaseForLearning false emb ins did verdict risk reasoning = (false, none)
    ∧ (∀ conn c,
        (storeCaseForLearning conn emb ins did verdict risk reasoning).2 = some c →
        (verdict = "FLAG" ∨ verdict = "REVIEW") ∧ c.verdict = verdict)
    ∧ (∀ (store : List StoredCase) (dist : StoredCase → ℚ) (k : ℕ)
          (r : RawCaseResult), r ∈ searchCasesFiltered store dist k →
        r.verdict = "FLAG" ∨ r.verdict = "REVIEW") := by
  refine ⟨?_, ?_, ?_, ?_⟩
  · intro hv
    simp [storeCaseForLearning, hv]
  · simp [storeCaseForLearning]
  · intro conn c hc
    cases conn with
    | false => simp [storeCaseForLearning] at hc
    | true =>
      by_cases hv : verdict = "FLAG" ∨ verdict = "REVIEW"
      · refine ⟨hv, ?_⟩
        unfold storeCaseForLearning at hc
        rw [if_neg (by simp), if_neg (not_not_intro hv)] at hc
        rcases emb with e | v
        · simp at hc
        · rcases ins with e | u
          · simp at hc
          · have hc' : (⟨did, verdict, risk, reasoning.take 500⟩ : StoredCase) = c :=
              Option.some.inj hc
            rw [← hc']
      · simp [storeCaseForLearning, hv] at hc
  · intro store dist k r hr
    unfold searchCasesFiltered at hr
    obtain ⟨c, hc, rfl⟩ := List.mem_map.mp hr
    have hmem := List.mem_of_mem_take hc
    have hfilt := List.of_mem_filter hmem
    simpa using hfilt

/-- Witness for `store_case_verdict_gate`: a CLEAR verdict on a connected
store returns True with nothing inserted; the filtered search over a
mixed store returns only FLAG/REVIEW verdicts. -/
theorem store_case_verdict_gate_witness :
    storeCaseForLearning true (.ok [1]) (.ok ()) "d1" "CLEAR" (1/10) "fine"
      = (true, none)
    ∧ (("FLAG" : String) = "FLAG" ∨ ("FLAG" : String) = "REVIEW") := by
  have h := store_case_verdict_gate (.ok [1]) (.ok ()) "d1" "CLEAR" "fine" (1/10)
  refine ⟨h.1 (by simp), ?_⟩
  have h4 := (store_case_verdict_gate (.ok [1]) (.ok ()) "d1" "CLEAR" "fine" (1/10)).2.2.2
    [⟨"c1", "FLAG", 1/2, "r"⟩, ⟨"c2", "CLEAR", 0, "r"⟩] (fun _ => 0) 5
    ⟨"c1", 0, "FLAG", 1/2, "r"⟩ (by simp [searchCasesFiltered])
  exact h4

/-- Claim C10 (counterexample) — with the case store disconnected, a call
with verdict CLEAR returns False, not True (nothing is inserted either
way). -/
theorem store_case_disconnected_counterexample :
    (storeCaseForLearning false (.ok [1]) (.ok ()) "d1" "CLEAR" (1/10) "ok").1 = false
    ∧ ((false : Bool) ≠ true)
    ∧ (storeCaseForLearning false (.ok [1]) (.ok ()) "d1" "CLEAR" (1/10) "ok").2 = none := by
  exact ⟨rfl, by simp, rfl⟩

end PolicyLens

namespace PolicyLens

/-! ## Batch re-evaluation (`batch_processor.py:23-125`)

`reevaluate_all_decisions` with no filter (`filter_by=None`, so
`_apply_filters` returns the list unchanged).  The stored decision's
transaction payload is an opaque `TxRaw` with an abstract parser
(`Transaction(**tx)` / `model_validate`), and the compliance engine is an
abstract fallible evaluator; the generated reason string and timestamps
are omitted (no claim concerns them). -/

/-- A stored decision as the batch processor reads it back: the payload
is `none` for a missing/empty `"transaction"` key, and the remaining
fields are the pieces of the stored `"decision"` dict the loop reads. -/
structure StoredBatchDecision (TxRaw : Type) where
  decision_id : Option String := none
  trace_id : Option String := none
  transaction : Option TxRaw := none
  old_verdict : Option String := none
  old_risk_score : Option ℚ := none
deriving DecidableEq

/-- The slice of an engine result the batch loop reads
(`new_eval["decision"].verdict.value`, `.risk_score`). -/
structure BatchEval where
  verdict : String
  risk_score : ℚ
deriving DecidableEq

structure ChangeEntry where
  transaction_id : String
  decision_id : Option String
  old_verdict : Option String
  new_verdict : Option String
  old_risk_score : Option ℚ
  new_risk_score : ℚ
deriving DecidableEq

/-- The summary dict returned by `reevaluate_all_decisions`.  The
`filtered_decisions` key is absent from the empty-store early return,
hence the `Option`. -/
structure BatchSummary where
  status : String
  total_decisions : ℕ
  filtered_decisions : Option ℕ
  re_evaluated : ℕ
  verdicts_changed : ℕ
  changes : List ChangeEntry
deriving DecidableEq

/-- One iteration's fate: `none` when the record is skipped — missing
payload (`continue`), parse failure or evaluation failure (both caught by
the per-item `except` and skipped) — otherwise the parsed transaction and
the fresh evaluation. -/
def reevalOutcome {TxRaw : Type} (parseTx : TxRaw → Except String Transaction)
    (engine : Transaction → Except String BatchEval)
    (d : StoredBatchDecision TxRaw) : Option (Transaction × BatchEval) :=
  match d.transaction with
  | none => none
  | some raw =>
    match parseTx raw with
    | .error _ => none
    | .ok tx =>
      match engine tx with
      | .error _ => none
      | .ok ev => some (tx, ev)

/-- The loop body: bump `successfully_evaluated`, compare verdicts, and
append a change entry when they differ. -/
def batchStep {TxRaw : Type} (parseTx : TxRaw → Except String Transaction)
    (engine : Transaction → Except String BatchEval)
    (acc : ℕ × ℕ × List ChangeEntry) (d : StoredBatchDecision TxRaw) :
    ℕ × ℕ × List ChangeEntry :=
  match reevalOutcome parseTx engine d with
  | none => acc
  | some (tx, ev) =>
    if d.old_verdict ≠ some ev.verdict then
      (acc.1 + 1, acc.2.1 + 1, acc.2.2 ++
        [{ transaction_id := tx.transaction_id
           decision_id := (d.trace_id).orElse fun _ => d.decision_id
           old_verdict := d.old_verdict
           new_verdict := some ev.verdict
           old_risk_score := d.old_risk_score
           new_risk_score := ev.risk_score }])
    else (acc.1 + 1, acc.2.1, acc.2.2)

/-- `BatchProcessor.reevaluate_all_decisions` with `filter_by = None`. -/
def reevaluateAllDecisions {TxRaw : Type}
    (parseTx : TxRaw → Except String Transaction)
    (engine : Transaction → Except String BatchEval)
    (decisions : List (StoredBatchDecision TxRaw)) : BatchSummary :=
  if decisions.isEmpty then
    { status := "completed", total_decisions := 0, filtered_decisions := none
      re_evaluated := 0, verdicts_changed := 0, changes := [] }
  else
    let r := decisions.foldl (batchStep parseTx engine) (0, 0, [])
    { status := "completed", total_decisions := decisions.length
      filtered_decisions := some decisions.length
      re_evaluated := r.1, verdicts_changed := r.2.1, changes := r.2.2 }

/-- A record is re-evaluated iff its payload is present, parses, and the
engine call succeeds. -/
def reevaluableB {TxRaw : Type} (parseTx : TxRaw → Except String Transaction)
    (engine : Transaction → Except String BatchEval)
    (d : StoredBatchDecision TxRaw) : Bool :=
  (reevalOutcome parseTx engine d).isSome

/-- A record whose transaction payload is missing or fails to parse. -/
def badPayloadB {TxRaw : Type} (parseTx : TxRaw → Except String Transaction)
    (d : StoredBatchDecision TxRaw) : Bool :=
  match d.transaction with
  | none => true
  | some raw =>
    match parseTx raw with
    | .error _ => true
    | .ok _ => false

/-- A record whose re-evaluation succeeds with a changed verdict. -/
def verdictChangedB {TxRaw : Type} (parseTx : TxRaw → Except String Transaction)
    (engine : Transaction → Except String BatchEval)
    (d : StoredBatchDecision TxRaw) : Bool :=
  match reevalOutcome parseTx engine d with
  | none => false
  | some (_, ev) => d.old_verdict ≠ some ev.verdict

theorem batch_foldl_counts {TxRaw : Type}
    (parseTx : TxRaw → Except String Transaction)
    (engine : Transaction → Except String BatchEval)
    (l : List (StoredBatchDecision TxRaw)) (a b : ℕ) (es : List ChangeEntry) :
    (l.foldl (batchStep parseTx engine) (a, b, es)).1
        = a + l.countP (reevaluableB parseTx engine)
    ∧ (l.foldl (batchStep parseTx engine) (a, b, es)).2.1
        = b + l.countP (verdictChangedB parseTx engine) := by
  induction l generalizing a b es with
  | nil => simp
  | cons d t ih =>
    simp only [List.foldl_cons, List.countP_cons]
    rw [batchStep]
    rcases ho : reevalOutcome parseTx engine d with _ | ⟨tx, ev⟩
    · have h1 : reevaluableB parseTx engine d = false := by
        simp [reevaluableB, ho]
      have h2 : verdictChangedB parseTx engine d = false := by
        simp [verdictChangedB, ho]
      rw [h1, h2]
      simpa using ih a b es
    · have h1 : reevaluableB parseTx engine d = true := by
        simp [reevaluableB, ho]
      have h2 : verdictChangedB parseTx engine d
          = decide (d.old_verdict ≠ some ev.verdict) := by
        simp [verdictChangedB, ho]
      rw [h1, h2]
      dsimp only
      by_cases hne : d.old_verdict ≠ some ev.verdict
      · rw [if_pos hne]
        have hih := ih (a + 1) (b + 1) (es ++
          [{ transaction_id := tx.transaction_id
             decision_id := (d.trace_id).orElse fun _ => d.decision_id
             old_verdict := d.old_verdict
             new_verdict := some ev.verdict
             old_risk_score := d.old_risk_score
             new_risk_score := ev.risk_score }])
        rw [hih.1, hih.2]
        simp [hne]
        constructor <;> omega
      · rw [if_neg hne]
        have hih := ih (a + 1) b es
        rw [hih.1, hih.2]
        simp [hne]
        omega

theorem reevaluable_not_bad {TxRaw : Type}
    (parseTx : TxRaw → Except String Transaction)
    (engine : Transaction → Except String BatchEval)
    (d : StoredBatchDecision TxRaw)
    (h : reevaluableB parseTx engine d = true) :
    badPayloadB parseTx d = false := by
  unfold reevaluableB reevalOutcome at h
  unfold badPayloadB
  rcases htx : d.transaction with _ | raw <;> rw [htx] at h
  · simp at h
  · dsimp only at h ⊢
    rcases hp : parseTx raw with e | tx
    · rw [hp] at h
      simp at h
    · rfl

theorem countP_add_le_length {α : Type} (p q : α → Bool) (l : List α)
    (h : ∀ x ∈ l, p x = true → q x = false) :
    l.countP p + l.countP q ≤ l.length := by
  induction l with
  | nil => simp
  | cons a t ih =>
    have ha := h a (by simp)
    have ht := ih fun x hx => h x (by simp [hx])
    simp only [List.countP_cons, List.length_cons]
    by_cases hp : p a = true
    · have hq := ha hp
      simp [hp, hq]
      omega
    · simp only [Bool.not_eq_true] at hp
      simp [hp]
      split <;> omega

/-- The parser for the concrete batch scenario: the payload whose id is
"bad" fails to parse, everything else round-trips. -/
def parseTxC5 : Transaction → Except String Transaction :=
  fun t => if t.transaction_id = "bad" then .error "unparsable payload" else .ok t

/-- The engine for the concrete batch scenario: always evaluates to the
verdict `flag` with risk 0.5. -/
def engineC5 : Transaction → Except String BatchEval :=
  fun _ => .ok ⟨"flag", 1/2⟩

def goodStored : StoredBatchDecision Transaction :=
  { decision_id := some "d", trace_id := some "t"
    transaction := some sampleTx
    old_verdict := some "flag", old_risk_score := some (1/2) }

def badStored : StoredBatchDecision Transaction :=
  { decision_id := some "b", trace_id := some "tb"
    transaction := some { sampleTx with transaction_id := "bad" }
    old_verdict := some "flag", old_risk_score := some (1/2) }

/-- Ten stored decisions, two of which have unparsable payloads. -/
def storeC5 : List (StoredBatchDecision Transaction) :=
  [goodStored, goodStored, goodStored, goodStored, badStored,
   goodStored, goodStored, badStored, goodStored, goodStored]

/-- Claim C5 (amended) — Batch re-evaluation is total (it always returns
a "completed" summary; no per-record failure escapes the loop): records
with missing or unparsable payloads, and records whose re-evaluation
fails, are skipped; the summary reports the total, the filtered count,
the re-evaluated count and the verdicts-changed count, with
re-evaluated + (number of bad-payload records) ≤ total; skipped records
are not separately counted — their number is only implicit as the
difference.  In the 10-decision scenario with 2 unparsable payloads the
summary has total = 10 and re_evaluated = 8. -/
theorem batch_reevaluation_fault_isolation {TxRaw : Type}
    (parseTx : TxRaw → Except String Transaction)
    (engine : Transaction → Except String BatchEval)
    (decisions : List (StoredBatchDecision TxRaw)) :
    (reevaluateAllDecisions parseTx engine decisions).status = "completed"
    ∧ (reevaluateAllDecisions parseTx engine decisions).total_decisions
        = decisions.length
    ∧ (reevaluateAllDecisions parseTx engine decisions).re_evaluated
        = decisions.countP (reevaluableB parseTx engine)
    ∧ (reevaluateAllDecisions parseTx engine decisions).verdicts_changed
        = decisions.countP (verdictChangedB parseTx engine)
    ∧ (reevaluateAllDecisions parseTx engine decisions).re_evaluated
        + decisions.countP (badPayloadB parseTx) ≤ decisions.length
    ∧ (reevaluateAllDecisions parseTxC5 engineC5 storeC5).total_decisions = 10
    ∧ (reevaluateAllDecisions parseTxC5 engineC5 storeC5).re_evaluated = 8 := by
  have hcounts := batch_foldl_counts parseTx engine decisions 0 0 []
  have hmain : (reevaluateAllDecisions parseTx engine decisions).status = "completed"
      ∧ (reevaluateAllDecisions parseTx engine decisions).total_decisions
          = decisions.length
      ∧ (reevaluateAllDecisions parseTx engine decisions).re_evaluated
          = decisions.countP (reevaluableB parseTx engine)
      ∧ (reevaluateAllDecisions parseTx engine decisions).verdicts_changed
          = decisions.countP (verdictChangedB parseTx engine) := by
    unfold reevaluateAllDecisions
    rcases decisions with _ | ⟨d, t⟩
    · simp
    · rw [if_neg (by simp)]
      refine ⟨rfl, rfl, by simpa using hcounts.1, by simpa using hcounts.2⟩
  refine ⟨hmain.1, hmain.2.1, hmain.2.2.1, hmain.2.2.2, ?_, by decide, by decide⟩
  rw [hmain.2.2.1]
  exact countP_add_le_length _ _ decisions
    (fun d _ hd => reevaluable_not_bad parseTx engine d hd)

/-- Claim C5 (counterexample) — in the 10-decision scenario with 2
unparsable payloads the returned summary is exactly
`{completed, 10, some 10, 8, 0, []}`: no component of the summary equals
2, so the two skipped records are not "counted as skipped in the returned
summary" — their number is only implicit as total − re_evaluated. -/
theorem batch_skipped_not_reported_counterexample :
    reevaluateAllDecisions parseTxC5 engineC5 storeC5
      = { status := "completed", total_decisions := 10
          filtered_decisions := some 10, re_evaluated := 8
          verdicts_changed := 0, changes := [] }
    ∧ (reevaluateAllDecisions parseTxC5 engineC5 storeC5).total_decisions ≠ 2
    ∧ (reevaluateAllDecisions parseTxC5 engineC5 storeC5).filtered_decisions ≠ some 2
    ∧ (reevaluateAllDecisions parseTxC5 engineC5 storeC5).re_evaluated ≠ 2
    ∧ (reevaluateAllDecisions parseTxC5 engineC5 storeC5).verdicts_changed ≠ 2
    ∧ (reevaluateAllDecisions parseTxC5 engineC5 storeC5).changes.length ≠ 2 := by
  refine ⟨by decide, by decide, by decide, by decide, by decide, by decide⟩

end PolicyLens

namespace PolicyLens

/-! ## Policy chunker (`document_processor.py:143-188`)

`DocumentProcessor._create_chunks` works on the whitespace-delimited
token list of a (section's) text: fixed windows of `chunk_size` tokens
advancing by `chunk_size - chunk_overlap`, stopping (`break`) at the
first window whose joined text is under 50 characters.  Text is modelled
as `List Char` and a token as a nonempty `List Char`; `' '.join` is
`joinTokens`, and `.strip()` is the identity on a join of
whitespace-free tokens, so the minimum-length guard compares the join's
length directly. -/

/-- `str.split()` (split on whitespace runs, no empty tokens), via an
accumulator for the current word. -/
def tokenizeAux : List Char → List Char → List (List Char)
  | [], acc => if acc.isEmpty then [] else [acc.reverse]
  | c :: rest, acc =>
    if c.isWhitespace then
      if acc.isEmpty then tokenizeAux rest []
      else acc.reverse :: tokenizeAux rest []
    else tokenizeAux rest (c :: acc)

def tokenize (s : List Char) : List (List Char) := tokenizeAux s []

/-- `' '.join(words)`. -/
def joinTokens : List (List Char) → List Char
  | [] => []
  | [w] => w
  | w :: w2 :: ws => w ++ [' '] ++ joinTokens (w2 :: ws)

theorem tokenizeAux_tokens_nonempty (s : List Char) (acc : List Char) :
    ∀ w ∈ tokenizeAux s acc, w ≠ [] := by
  induction s generalizing acc with
  | nil =>
    intro w hw
    rw [tokenizeAux] at hw
    split_ifs at hw with h
    · simp at hw
    · simp at hw
      subst hw
      simpa [List.isEmpty_iff] using h
  | cons c rest ih =>
    intro w hw
    rw [tokenizeAux] at hw
    split_ifs at hw with h1 h2
    · exact ih [] w hw
    · rcases List.mem_cons.mp hw with h | h
      · subst h
        simpa [List.isEmpty_iff] using h2
      · exact ih [] w h
    · exact ih (c :: acc) w hw

theorem tokenize_tokens_nonempty (s : List Char) :
    ∀ w ∈ tokenize s, w ≠ [] :=
  tokenizeAux_tokens_nonempty s []

/-- `' '.join` of `k` nonempty tokens has at least `2k − 1` characters. -/
theorem joinTokens_length_ge (ws : List (List Char)) (h : ∀ w ∈ ws, w ≠ []) :
    2 * ws.length - 1 ≤ (joinTokens ws).length := by
  induction ws with
  | nil => simp [joinTokens]
  | cons w t ih =>
    rcases t with _ | ⟨w2, t2⟩
    · have hw := h w (by simp)
      have : 1 ≤ w.length := by
        cases w with
        | nil => simp at hw
        | cons a b => simp
      simpa [joinTokens] using this
    · have hw := h w (by simp)
      have h1 : 1 ≤ w.length := by
        cases w with
        | nil => simp at hw
        | cons a b => simp
      have ht := ih fun x hx => h x (by simp [hx])
      rw [joinTokens]
      simp only [List.length_append, List.length_cons, List.length_nil]
      simp only [List.length_cons] at ht ⊢
      omega

/-- The chunking loop of `_create_chunks`, from window start `start`:
`words[start:start+chunk_size]`, breaking at the first window whose
joined text has fewer than 50 characters, else advancing by
`chunk_size - chunk_overlap`.  The loop terminates because the stride is
positive (`chunk_overlap < chunk_size`, as in the 600/100 defaults). -/
def createChunksFrom (chunk_size overlap : ℕ) (hso : overlap < chunk_size)
    (words : List (List Char)) (start : ℕ) : List (List (List Char)) :=
  if h : start < words.length then
    if (joinTokens ((words.drop start).take chunk_size)).length < 50 then []
    else ((words.drop start).take chunk_size)
      :: createChunksFrom chunk_size overlap hso words (start + (chunk_size - overlap))
  else []
termination_by words.length - start
decreasing_by omega

/-- `_create_chunks` with the configured defaults
(`chunk_size = 600`, `chunk_overlap = 100`). -/
def createChunksDefault (words : List (List Char)) : List (List (List Char)) :=
  createChunksFrom 600 100 (by norm_num) words 0

/-- Spec-side reassembly: concatenate the chunks in output order after
removing the configured overlap from every chunk but the first. -/
def reassemble (overlap : ℕ) : List (List (List Char)) → List (List Char)
  | [] => []
  | c :: rest => c ++ (rest.map (List.drop overlap)).flatten

theorem chunksFrom_roundtrip (cs ov : ℕ) (hso : ov < cs) (h25 : 25 ≤ ov)
    (words : List (List Char)) (hw : ∀ w ∈ words, w ≠ [])
    (s : ℕ) (hs : s < words.length)
    (hlen : ¬ (joinTokens ((words.drop s).take cs)).length < 50) :
    reassemble ov (createChunksFrom cs ov hso words s) = words.drop s := by
  rw [createChunksFrom, dif_pos hs, if_neg hlen]
  set s' := s + (cs - ov) with hs'
  by_cases hrest : createChunksFrom cs ov hso words s' = []
  · -- the recursion stops right after this chunk: the window covers the tail
    rw [hrest]
    simp only [reassemble, List.map_nil, List.flatten_nil, List.append_nil]
    -- show the remaining tail fits inside one window
    have htail : words.length - s ≤ cs := by
      rw [createChunksFrom] at hrest
      split_ifs at hrest with h1 h2
      · -- s' < length but the next window is under the minimum length:
        -- it has at most 25 tokens, all of which the previous window covers
        have hsub : ∀ w ∈ (words.drop s').take cs, w ≠ [] := fun w hm =>
          hw w (List.drop_subset _ _ (List.take_subset _ _ hm))
        have hge := joinTokens_length_ge _ hsub
        have hlen' : ((words.drop s').take cs).length
            = min cs (words.length - s') := by
          simp [List.length_take, List.length_drop]
        have hcount : min cs (words.length - s') ≤ 25 := by
          by_contra hgt
          push_neg at hgt
          rw [hlen'] at hge
          omega
        have : words.length - s' ≤ 25 := by
          rcases Nat.le_total cs (words.length - s') with hc | hc
          · have := Nat.min_eq_left hc
            omega
          · have := Nat.min_eq_right hc
            omega
        omega
      · -- s' ≥ length
        omega
    exact List.take_of_length_le (by simpa using htail)
  · -- the recursion continues: peel one window and use the inductive call
    have hs2 : s' < words.length := by
      by_contra hge
      rw [createChunksFrom, dif_neg hge] at hrest
      exact hrest rfl
    have hlen2 : ¬ (joinTokens ((words.drop s').take cs)).length < 50 := by
      intro hbad
      rw [createChunksFrom, dif_pos hs2, if_pos hbad] at hrest
      exact hrest rfl
    have ih := chunksFrom_roundtrip cs ov hso h25 words hw s' hs2 hlen2
    rw [createChunksFrom, dif_pos hs2, if_neg hlen2] at ih
    rw [createChunksFrom, dif_pos hs2, if_neg hlen2]
    simp only [reassemble, List.map_cons, List.flatten_cons] at ih ⊢
    -- cancel the overlap against the previous window
    rw [← List.append_assoc]
    have e1 : ((words.drop s').take cs).drop ov
        = ((words.drop s).drop cs).take (cs - ov) := by
      rw [List.drop_take]
      congr 1
      rw [List.drop_drop, List.drop_drop, show s' + ov = s + cs by omega]
    have e2 : (words.drop s).drop (cs - ov) = words.drop s' := by
      rw [List.drop_drop, show s + (cs - ov) = s' by omega]
    rw [e1, ← List.take_add, show cs + (cs - ov) = (cs - ov) + cs by omega,
      List.take_add, e2, List.append_assoc, ih, ← e2, List.take_append_drop]
termination_by words.length - s
decreasing_by omega

end PolicyLens

namespace PolicyLens

/-- Claim C4 (amended) — Whenever the document's first 600-token window
joins to at least the 50-character minimum, concatenating the produced
chunks after removing the configured 100-token overlap from every chunk
but the first reproduces the document's whitespace-delimited token
sequence exactly (no tokens dropped, order preserved).  When the first
window is under 50 characters the chunker emits no chunks at all, so a
nonempty document shorter than the minimum loses all its tokens. -/
theorem chunking_roundtrip (text : List Char) :
    (50 ≤ (joinTokens ((tokenize text).take 600)).length →
      reassemble 100 (createChunksDefault (tokenize text)) = tokenize text)
    ∧ ((joinTokens ((tokenize text).take 600)).length < 50 →
      createChunksDefault (tokenize text) = []) := by
  constructor
  · intro hlong
    have hne : tokenize text ≠ [] := by
      intro hempty
      rw [hempty] at hlong
      simp [joinTokens] at hlong
    have hpos : 0 < (tokenize text).length := List.length_pos.mpr hne
    have h := chunksFrom_roundtrip 600 100 (by norm_num) (by norm_num)
      (tokenize text) (tokenize_tokens_nonempty text) 0 hpos
      (by simpa using Nat.not_lt.mpr hlong)
    simpa [createChunksDefault] using h
  · intro hshort
    rw [createChunksDefault, createChunksFrom]
    by_cases hpos : 0 < (tokenize text).length
    · rw [dif_pos hpos, if_pos (by simpa using hshort)]
    · rw [dif_neg hpos]

/-- A 17-token document ("ab" seventeen times) whose joined text is
exactly 50 characters: one chunk, reassembled without loss. -/
def sC4 : List Char :=
  ("ab ab ab ab ab ab ab ab ab ab ab ab ab ab ab ab ab").toList

/-- Witness for `chunking_roundtrip`: the 17-token document meets the
50-character minimum and round-trips. -/
theorem chunking_roundtrip_witness :
    50 ≤ (joinTokens ((tokenize sC4).take 600)).length
    ∧ reassemble 100 (createChunksDefault (tokenize sC4)) = tokenize sC4 :=
  ⟨by decide, (chunking_roundtrip sC4).1 (by decide)⟩

/-- Claim C4 (counterexample) — the two-token document "hello world"
(11 characters, under the 50-character minimum) produces no chunks, so
reassembling its chunks yields the empty token sequence, not the
original two tokens: the round-trip drops tokens. -/
theorem chunking_short_document_counterexample :
    createChunksDefault (tokenize ("hello world".toList)) = []
    ∧ tokenize ("hello world".toList) ≠ []
    ∧ reassemble 100 (createChunksDefault (tokenize ("hello world".toList)))
        ≠ tokenize ("hello world".toList) := by
  have htk : tokenize ("hello world".toList)
      = [['h','e','l','l','o'], ['w','o','r','l','d']] := by decide
  have h1 : createChunksDefault (tokenize ("hello world".toList)) = [] := by
    rw [createChunksDefault, htk, createChunksFrom, dif_pos (by decide),
      if_pos (by decide)]
  refine ⟨h1, by decide, ?_⟩
  rw [h1, htk]
  decide

end PolicyLens

namespace PolicyLens

/-! ## Policy-change detection (`policy_sentinel.py:18-50`)

`detect_policy_change` computes `SequenceMatcher(None, old, new).ratio()`.
The matcher is modelled with difflib's full default junk handling: there
is no explicit junk (`isjunk=None`, so `bjunk` stays empty), and the
autojunk heuristic is active — when the second sequence holds at least
200 elements, every element occurring more than `len(b) // 100 + 1`
times is *popular* and is purged from `b2j`, so it can neither seed nor
grow a run in the core search of `find_longest_match`.  The core search
returns the longest popular-free matching run, ties broken by the
earliest start in `a`, then in `b`; it is modelled as a fold over the
maximal popular-free runs starting at each `(i, j)`, in lexicographic
start order, keeping the first run of maximal length — a candidate has
maximal length precisely when it is one of the maximal runs the dynamic
programme's strict update `k > bestsize` elects, and both pick the
lexicographically least start.  The two junk-free extension phases then
widen the winning block backwards and forwards over *any* equal adjacent
elements, popular included; the junk extension phases are no-ops since
`bjunk` is empty.  The popular set is computed once from the full second
sequence (`__chain_b`) and shared by the recursive calls of
`get_matching_blocks`, hence the explicit `pop` parameter below.
`ratio = 2*M/T` with `M` the total matched size and `T` the combined
length (1.0 when both texts are empty).  The record's affected-section
extraction, timestamp and change file write are omitted — no claim
concerns them. -/

structure LMatch where
  i : ℕ
  j : ℕ
  size : ℕ
deriving DecidableEq

/-- Length of the longest common prefix. -/
def commonLen : List Char → List Char → ℕ
  | a :: as, b :: bs => if a = b then commonLen as bs + 1 else 0
  | _, _ => 0

/-- difflib's autojunk predicate over the second sequence `b`: active
when `len(b) >= 200`; an element is popular when it occurs more than
`len(b) // 100 + 1` times (`SequenceMatcher.__chain_b`). -/
def popularB (b : List Char) : Char → Bool :=
  fun c => decide (200 ≤ b.length) && decide (b.length / 100 + 1 < b.count c)

/-- Length of the longest common prefix running through non-popular
elements only: the core loop of `find_longest_match` chains a match at
`(i, j)` only when `b[j]` survived the `b2j` purge. -/
def commonLenNP (pop : Char → Bool) : List Char → List Char → ℕ
  | a :: as, b :: bs =>
      if a = b ∧ pop b = false then commonLenNP pop as bs + 1 else 0
  | _, _ => 0

/-- Keep the better of two blocks; on ties the earlier (first) one wins,
giving difflib's earliest-in-`a`-then-earliest-in-`b` tie break. -/
def bestOf (m1 m2 : LMatch) : LMatch := if m2.size > m1.size then m2 else m1

/-- The candidate block starting at `(i, j)`: the maximal popular-free
run from there. -/
def candAt (pop : Char → Bool) (a b : List Char) (i j : ℕ) : LMatch :=
  ⟨i, j, commonLenNP pop (a.drop i) (b.drop j)⟩

/-- All candidate blocks in lexicographic `(i, j)` start order. -/
def matchCandidates (pop : Char → Bool) (a b : List Char) : List LMatch :=
  (List.range a.length).flatMap fun i =>
    (List.range b.length).map (candAt pop a b i)

/-- The core dynamic programme of `find_longest_match`: the longest
popular-free run, earliest in `a` then in `b` (`(0,0,0)` when there is
none). -/
def coreBest (pop : Char → Bool) (a b : List Char) : LMatch :=
  (matchCandidates pop a b).foldl bestOf ⟨0, 0, 0⟩

/-- Backward extension of the winning block over equal elements (the
first `while` after the core search; `bjunk` is empty, so only equality
is tested). -/
def backExt (a b : List Char) (m : LMatch) : ℕ :=
  commonLen ((a.take m.i).reverse) ((b.take m.j).reverse)

/-- Forward extension of the winning block over equal elements (the
second `while` after the core search; `besti + bestsize` and
`bestj + bestsize` are unchanged by the backward extension). -/
def fwdExt (a b : List Char) (m : LMatch) : ℕ :=
  commonLen (a.drop (m.i + m.size)) (b.drop (m.j + m.size))

/-- `SequenceMatcher.find_longest_match` over the whole ranges (in local
coordinates): core best popular-free block, then backward and forward
extension over any equal adjacent elements. -/
def findLongestMatch (pop : Char → Bool) (a b : List Char) : LMatch :=
  ⟨(coreBest pop a b).i - backExt a b (coreBest pop a b),
   (coreBest pop a b).j - backExt a b (coreBest pop a b),
   (coreBest pop a b).size + backExt a b (coreBest pop a b)
     + fwdExt a b (coreBest pop a b)⟩

theorem commonLen_le_left (x y : List Char) : commonLen x y ≤ x.length := by
  induction x generalizing y with
  | nil => cases y <;> simp [commonLen]
  | cons a as ih =>
    cases y with
    | nil => simp [commonLen]
    | cons b bs =>
      rw [commonLen]
      split_ifs
      · simpa using ih bs
      · simp

theorem commonLen_le_right (x y : List Char) : commonLen x y ≤ y.length := by
  induction x generalizing y with
  | nil => cases y <;> simp [commonLen]
  | cons a as ih =>
    cases y with
    | nil => simp [commonLen]
    | cons b bs =>
      rw [commonLen]
      split_ifs
      · simpa using ih bs
      · simp

theorem commonLen_nil_left (y : List Char) : commonLen [] y = 0 := by
  cases y <;> rfl

theorem commonLenNP_nil_left (pop : Char → Bool) (y : List Char) :
    commonLenNP pop [] y = 0 := by
  cases y <;> rfl

theorem commonLenNP_nil_right (pop : Char → Bool) (x : List Char) :
    commonLenNP pop x [] = 0 := by
  cases x <;> rfl

theorem commonLenNP_le_left (pop : Char → Bool) (x y : List Char) :
    commonLenNP pop x y ≤ x.length := by
  induction x generalizing y with
  | nil => rw [commonLenNP_nil_left]; exact Nat.zero_le _
  | cons a as ih =>
    cases y with
    | nil => rw [commonLenNP_nil_right]; exact Nat.zero_le _
    | cons b bs =>
      rw [commonLenNP]
      split_ifs
      · simpa using ih bs
      · simp

theorem commonLenNP_le_right (pop : Char → Bool) (x y : List Char) :
    commonLenNP pop x y ≤ y.length := by
  induction x generalizing y with
  | nil => rw [commonLenNP_nil_left]; exact Nat.zero_le _
  | cons a as ih =>
    cases y with
    | nil => rw [commonLenNP_nil_right]; exact Nat.zero_le _
    | cons b bs =>
      rw [commonLenNP]
      split_ifs
      · simpa using ih bs
      · simp

/-- A run from `(x, y)` is no longer than the diagonal run from `(y, y)`
(popularity is a property of the `b`-side element, so it transfers
across the equal characters of the run). -/
theorem commonLenNP_le_diag_right (pop : Char → Bool) (x y : List Char) :
    commonLenNP pop x y ≤ commonLenNP pop y y := by
  induction x generalizing y with
  | nil => rw [commonLenNP_nil_left]; exact Nat.zero_le _
  | cons a as ih =>
    cases y with
    | nil => rw [commonLenNP_nil_right]; exact Nat.zero_le _
    | cons b bs =>
      by_cases h : a = b ∧ pop b = false
      · have hl : commonLenNP pop (a :: as) (b :: bs) = commonLenNP pop as bs + 1 := by
          rw [commonLenNP, if_pos h]
        have hr : commonLenNP pop (b :: bs) (b :: bs) = commonLenNP pop bs bs + 1 := by
          rw [commonLenNP, if_pos ⟨rfl, h.2⟩]
        rw [hl, hr]
        exact Nat.succ_le_succ (ih bs)
      · have hl : commonLenNP pop (a :: as) (b :: bs) = 0 := by
          rw [commonLenNP, if_neg h]
        rw [hl]
        exact Nat.zero_le _

/-- A run from `(x, y)` is no longer than the diagonal run from
`(x, x)`. -/
theorem commonLenNP_le_diag_left (pop : Char → Bool) (x y : List Char) :
    commonLenNP pop x y ≤ commonLenNP pop x x := by
  induction x generalizing y with
  | nil => rw [commonLenNP_nil_left]; exact Nat.zero_le _
  | cons a as ih =>
    cases y with
    | nil => rw [commonLenNP_nil_right]; exact Nat.zero_le _
    | cons b bs =>
      by_cases h : a = b ∧ pop b = false
      · have hpa : pop a = false := by rw [h.1]; exact h.2
        have hl : commonLenNP pop (a :: as) (b :: bs) = commonLenNP pop as bs + 1 := by
          rw [commonLenNP, if_pos h]
        have hr : commonLenNP pop (a :: as) (a :: as) = commonLenNP pop as as + 1 := by
          rw [commonLenNP, if_pos ⟨rfl, hpa⟩]
        rw [hl, hr]
        exact Nat.succ_le_succ (ih bs)
      · have hl : commonLenNP pop (a :: as) (b :: bs) = 0 := by
          rw [commonLenNP, if_neg h]
        rw [hl]
        exact Nat.zero_le _

theorem foldl_bestOf_or (l : List LMatch) (init : LMatch) :
    l.foldl bestOf init = init ∨ l.foldl bestOf init ∈ l := by
  induction l generalizing init with
  | nil => simp
  | cons x t ih =>
    rw [List.foldl_cons]
    rcases ih (bestOf init x) with h | h
    · rw [h]
      unfold bestOf
      split_ifs
      · right; simp
      · left; rfl
    · right
      exact List.mem_cons_of_mem _ h

theorem foldl_bestOf_keep (l : List LMatch) (init : LMatch) :
    (∀ m ∈ l, m.size ≤ init.size) → l.foldl bestOf init = init := by
  induction l with
  | nil => intro _; rfl
  | cons x t ih =>
    intro h
    have hx : bestOf init x = init := by
      rw [bestOf, if_neg (show ¬x.size > init.size from by
        have := h x (List.mem_cons_self x t); omega)]
    rw [List.foldl_cons, hx]
    exact ih fun m hm => h m (List.mem_cons_of_mem _ hm)

theorem mem_matchCandidates {pop : Char → Bool} {a b : List Char} {m : LMatch}
    (h : m ∈ matchCandidates pop a b) :
    m.i < a.length ∧ m.j < b.length
    ∧ m.size = commonLenNP pop (a.drop m.i) (b.drop m.j) := by
  unfold matchCandidates at h
  obtain ⟨i, hi, hm⟩ := List.mem_flatMap.mp h
  obtain ⟨j, hj, hm2⟩ := List.mem_map.mp hm
  rw [← hm2]
  exact ⟨List.mem_range.mp hi, List.mem_range.mp hj, rfl⟩

theorem coreBest_valid (pop : Char → Bool) (a b : List Char) :
    (coreBest pop a b).i + (coreBest pop a b).size ≤ a.length
    ∧ (coreBest pop a b).j + (coreBest pop a b).size ≤ b.length := by
  rcases foldl_bestOf_or (matchCandidates pop a b) ⟨0, 0, 0⟩ with hf | hf
  · have h0 : coreBest pop a b = ⟨0, 0, 0⟩ := hf
    rw [h0]
    exact ⟨Nat.zero_le _, Nat.zero_le _⟩
  · have hmem : coreBest pop a b ∈ matchCandidates pop a b := hf
    obtain ⟨hi, hj, hsz⟩ := mem_matchCandidates hmem
    constructor
    · have h1 := commonLenNP_le_left pop (a.drop (coreBest pop a b).i)
        (b.drop (coreBest pop a b).j)
      rw [← hsz, List.length_drop] at h1
      omega
    · have h1 := commonLenNP_le_right pop (a.drop (coreBest pop a b).i)
        (b.drop (coreBest pop a b).j)
      rw [← hsz, List.length_drop] at h1
      omega

theorem findLongestMatch_valid (pop : Char → Bool) (a b : List Char) :
    (findLongestMatch pop a b).i + (findLongestMatch pop a b).size ≤ a.length
    ∧ (findLongestMatch pop a b).j + (findLongestMatch pop a b).size ≤ b.length := by
  have hcore := coreBest_valid pop a b
  have hbi : backExt a b (coreBest pop a b) ≤ (coreBest pop a b).i := by
    have h1 := commonLen_le_left ((a.take (coreBest pop a b).i).reverse)
      ((b.take (coreBest pop a b).j).reverse)
    rw [List.length_reverse, List.length_take] at h1
    exact le_trans h1 (min_le_left _ _)
  have hbj : backExt a b (coreBest pop a b) ≤ (coreBest pop a b).j := by
    have h1 := commonLen_le_right ((a.take (coreBest pop a b).i).reverse)
      ((b.take (coreBest pop a b).j).reverse)
    rw [List.length_reverse, List.length_take] at h1
    exact le_trans h1 (min_le_left _ _)
  have hfa : fwdExt a b (coreBest pop a b)
      ≤ a.length - ((coreBest pop a b).i + (coreBest pop a b).size) := by
    have h1 := commonLen_le_left
      (a.drop ((coreBest pop a b).i + (coreBest pop a b).size))
      (b.drop ((coreBest pop a b).j + (coreBest pop a b).size))
    rw [List.length_drop] at h1
    exact h1
  have hfb : fwdExt a b (coreBest pop a b)
      ≤ b.length - ((coreBest pop a b).j + (coreBest pop a b).size) := by
    have h1 := commonLen_le_right
      (a.drop ((coreBest pop a b).i + (coreBest pop a b).size))
      (b.drop ((coreBest pop a b).j + (coreBest pop a b).size))
    rw [List.length_drop] at h1
    exact h1
  have hgi : (findLongestMatch pop a b).i
      = (coreBest pop a b).i - backExt a b (coreBest pop a b) := rfl
  have hgj : (findLongestMatch pop a b).j
      = (coreBest pop a b).j - backExt a b (coreBest pop a b) := rfl
  have hgs : (findLongestMatch pop a b).size
      = (coreBest pop a b).size + backExt a b (coreBest pop a b)
        + fwdExt a b (coreBest pop a b) := rfl
  rw [hgi, hgj, hgs]
  omega

/-- `SequenceMatcher.get_matching_blocks`, summed: the total number of
matched elements (recurse left and right of the longest block; the
popular set is computed once from the full second sequence and shared by
the recursive calls). -/
def matchTotal (pop : Char → Bool) (a b : List Char) : ℕ :=
  if hsz : (findLongestMatch pop a b).size = 0 then 0
  else
    matchTotal pop (a.take (findLongestMatch pop a b).i)
      (b.take (findLongestMatch pop a b).j)
    + (findLongestMatch pop a b).size
    + matchTotal pop
        (a.drop ((findLongestMatch pop a b).i + (findLongestMatch pop a b).size))
        (b.drop ((findLongestMatch pop a b).j + (findLongestMatch pop a b).size))
termination_by a.length + b.length
decreasing_by
  all_goals
    have hv := findLongestMatch_valid pop a b
    simp only [List.length_take, List.length_drop]
    omega

/-- `SequenceMatcher.ratio()`: `2M/T`, and 1.0 when both are empty; the
popular set is taken from the second sequence (`new_text`). -/
def ratio (a b : List Char) : ℚ :=
  if a.length + b.length = 0 then 1
  else 2 * (matchTotal (popularB b) a b : ℚ) / (a.length + b.length)

inductive ChangeType
  | MINOR
  | MODERATE
  | MAJOR
deriving DecidableEq

/-- `PolicySentinel._classify_change`. -/
def classifyChange (magnitude : ℚ) : ChangeType :=
  if magnitude < 5/100 then .MINOR
  else if magnitude < 20/100 then .MODERATE
  else .MAJOR

structure PolicyChangeRecord where
  old_doc_id : String
  new_doc_id : String
  similarity_ratio : ℚ
  change_magnitude : ℚ
  change_type : ChangeType
deriving DecidableEq

/-- `PolicySentinel.detect_policy_change` (`policy_sentinel.py:18-50`):
the reported ratio and magnitude are rounded to 4 decimals, while the
classification is computed from the unrounded magnitude. -/
def detectPolicyChange (old_doc_id new_doc_id : String)
    (old_text new_text : List Char) : PolicyChangeRecord :=
  let similarity := ratio old_text new_text
  let change_magnitude := 1 - similarity
  { old_doc_id := old_doc_id
    new_doc_id := new_doc_id
    similarity_ratio := round4 similarity
    change_magnitude := round4 change_magnitude
    change_type := classifyChange change_magnitude }

end PolicyLens

namespace PolicyLens

theorem commonLen_self (a : List Char) : commonLen a a = a.length := by
  induction a with
  | nil => rfl
  | cons c t ih => simp [commonLen, ih]

/-- Running maximum of a bound and the sizes of the diagonal blocks of a
candidate list. -/
def bumpB : List LMatch → ℕ → ℕ
  | [], B => B
  | c :: t, B => bumpB t (if c.i = c.j then max B c.size else B)

/-- A candidate list is *diagonally good* for bound `B` when every
off-diagonal block's size is dominated by `B` joined with the sizes of
the diagonal blocks listed before it. -/
def DiagGood : List LMatch → ℕ → Prop
  | [], _ => True
  | c :: t, B =>
      if c.i = c.j then DiagGood t (max B c.size) else c.size ≤ B ∧ DiagGood t B

theorem le_bumpB (l : List LMatch) (B : ℕ) : B ≤ bumpB l B := by
  induction l generalizing B with
  | nil => exact le_refl B
  | cons c t ih =>
    rw [bumpB]
    split_ifs with h
    · exact le_trans (Nat.le_max_left _ _) (ih _)
    · exact ih B

theorem bumpB_ge_diag (l : List LMatch) :
    ∀ (B : ℕ) (c : LMatch), c ∈ l → c.i = c.j → c.size ≤ bumpB l B := by
  induction l with
  | nil =>
    intro B c hc _
    exact absurd hc (List.not_mem_nil c)
  | cons x t ih =>
    intro B c hc hd
    rw [bumpB]
    rcases List.mem_cons.mp hc with h | h
    · subst h
      rw [if_pos hd]
      exact le_trans (Nat.le_max_right _ _) (le_bumpB _ _)
    · exact ih _ c h hd

theorem bumpB_offdiag (l : List LMatch) :
    ∀ (B : ℕ), (∀ c ∈ l, c.i ≠ c.j) → bumpB l B = B := by
  induction l with
  | nil => intro B _; rfl
  | cons c t ih =>
    intro B h
    rw [bumpB, if_neg (h c (List.mem_cons_self c t))]
    exact ih B fun m hm => h m (List.mem_cons_of_mem _ hm)

theorem diagGood_offdiag (l : List LMatch) :
    ∀ (B : ℕ), (∀ c ∈ l, c.i ≠ c.j ∧ c.size ≤ B) → DiagGood l B := by
  induction l with
  | nil => intro B _; trivial
  | cons c t ih =>
    intro B h
    have hc := h c (List.mem_cons_self c t)
    rw [DiagGood, if_neg hc.1]
    exact ⟨hc.2, ih B fun m hm => h m (List.mem_cons_of_mem _ hm)⟩

theorem diagGood_append (l1 l2 : List LMatch) :
    ∀ (B : ℕ), DiagGood l1 B → DiagGood l2 (bumpB l1 B) →
      DiagGood (l1 ++ l2) B := by
  induction l1 with
  | nil => intro B _ h2; exact h2
  | cons c t ih =>
    intro B h1 h2
    rw [List.cons_append, DiagGood]
    rw [DiagGood] at h1
    rw [bumpB] at h2
    by_cases hd : c.i = c.j
    · rw [if_pos hd] at h1 h2 ⊢
      exact ih _ h1 h2
    · rw [if_neg hd] at h1 h2 ⊢
      exact ⟨h1.1, ih _ h1.2 h2⟩

/-- Folding `bestOf` from a diagonal accumulator that dominates the
bound over a diagonally good list ends on a diagonal block: a strict
improvement can only come from a diagonal candidate. -/
theorem fold_diag (l : List LMatch) :
    ∀ (B : ℕ) (acc : LMatch), DiagGood l B → acc.i = acc.j → B ≤ acc.size →
      (l.foldl bestOf acc).i = (l.foldl bestOf acc).j := by
  induction l with
  | nil => intro B acc _ hacc _; exact hacc
  | cons c t ih =>
    intro B acc hg hacc hB
    rw [List.foldl_cons]
    rw [DiagGood] at hg
    by_cases hd : c.i = c.j
    · rw [if_pos hd] at hg
      apply ih (max B c.size) (bestOf acc c) hg
      · rw [bestOf]
        split_ifs
        · exact hd
        · exact hacc
      · rw [bestOf]
        split_ifs with hlt
        · exact max_le (le_of_lt (lt_of_le_of_lt hB hlt)) (le_refl _)
        · exact max_le hB (Nat.le_of_not_lt hlt)
    · rw [if_neg hd] at hg
      have hno : ¬c.size > acc.size := by
        have := hg.1
        omega
      apply ih B (bestOf acc c) hg.2
      · rw [bestOf, if_neg hno]
        exact hacc
      · rw [bestOf, if_neg hno]
        exact hB

/-- On `(a, a)`, the block of candidates with fixed first coordinate `i`
is diagonally good: candidates left of the diagonal are dominated by an
earlier diagonal run, candidates right of it by the diagonal run at
`i`. -/
theorem diagGood_block (pop : Char → Bool) (a : List Char) (i : ℕ)
    (hi : i < a.length) (B : ℕ)
    (hB : ∀ d, d < i → (candAt pop a a d d).size ≤ B) :
    DiagGood ((List.range a.length).map (candAt pop a a i)) B := by
  have hsplit : List.range a.length
      = List.range i ++ List.range' i (a.length - i) := by
    rw [List.range_eq_range', List.range_eq_range']
    have h2 := List.range'_append 0 i (a.length - i) 1
    rw [Nat.zero_add, Nat.one_mul] at h2
    rw [h2, show a.length - i + i = a.length by omega]
  have hoff1 : ∀ c ∈ (List.range i).map (candAt pop a a i),
      c.i ≠ c.j ∧ c.size ≤ B := by
    intro c hc
    obtain ⟨j, hj, hcj⟩ := List.mem_map.mp hc
    have hji : j < i := List.mem_range.mp hj
    subst hcj
    refine ⟨?_, ?_⟩
    · show i ≠ j
      omega
    · show commonLenNP pop (a.drop i) (a.drop j) ≤ B
      exact le_trans (commonLenNP_le_diag_right pop _ _) (hB j hji)
  rw [hsplit, List.map_append]
  apply diagGood_append
  · exact diagGood_offdiag _ B hoff1
  · rw [bumpB_offdiag _ B fun c hc => (hoff1 c hc).1]
    rw [show a.length - i = a.length - i - 1 + 1 by omega]
    rw [List.range'_succ, List.map_cons, DiagGood,
      if_pos (show (candAt pop a a i i).i = (candAt pop a a i i).j from rfl)]
    apply diagGood_offdiag
    intro c hc
    obtain ⟨j, hj, hcj⟩ := List.mem_map.mp hc
    have hji := List.mem_range'_1.mp hj
    subst hcj
    refine ⟨?_, ?_⟩
    · show i ≠ j
      omega
    · show commonLenNP pop (a.drop i) (a.drop j)
          ≤ max B (candAt pop a a i i).size
      exact le_trans (commonLenNP_le_diag_left pop _ _) (Nat.le_max_right _ _)

/-- On `(a, a)`, the whole candidate list is diagonally good for the
bound `0`. -/
theorem diagGood_candidates (pop : Char → Bool) (a : List Char) :
    DiagGood (matchCandidates pop a a) 0 := by
  have main : ∀ (len k B : ℕ), k + len = a.length →
      (∀ d, d < k → (candAt pop a a d d).size ≤ B) →
      DiagGood ((List.range' k len).flatMap
        (fun i => (List.range a.length).map (candAt pop a a i))) B := by
    intro len
    induction len with
    | zero =>
      intro k B _ _
      trivial
    | succ n ih =>
      intro k B hk hB
      rw [List.range'_succ, List.flatMap_cons]
      apply diagGood_append
      · exact diagGood_block pop a k (by omega) B hB
      · apply ih (k + 1) _ (by omega)
        intro d hd
        by_cases hdk : d < k
        · exact le_trans (hB d hdk) (le_bumpB _ _)
        · have hdek : d = k := by omega
          subst hdek
          apply bumpB_ge_diag
          · exact List.mem_map.mpr ⟨d, List.mem_range.mpr (by omega), rfl⟩
          · rfl
  have h0 := main a.length 0 0 (by omega) (by intro d hd; omega)
  rw [← List.range_eq_range'] at h0
  rw [matchCandidates]
  exact h0

theorem coreBest_self_diag (pop : Char → Bool) (a : List Char) :
    (coreBest pop a a).i = (coreBest pop a a).j := by
  rw [coreBest]
  exact fold_diag _ 0 ⟨0, 0, 0⟩ (diagGood_candidates pop a) rfl (Nat.zero_le _)

/-- On identical sequences the extended best block is the whole
sequence: the core block lies on the diagonal, and the extension phases
match everything on either side of it — popular elements included, which
is why autojunk never lowers the ratio of a text against itself. -/
theorem findLongestMatch_self (pop : Char → Bool) (a : List Char) :
    findLongestMatch pop a a = ⟨0, 0, a.length⟩ := by
  have hdiag := coreBest_self_diag pop a
  have hexp : findLongestMatch pop a a
      = ⟨(coreBest pop a a).i - backExt a a (coreBest pop a a),
         (coreBest pop a a).j - backExt a a (coreBest pop a a),
         (coreBest pop a a).size + backExt a a (coreBest pop a a)
           + fwdExt a a (coreBest pop a a)⟩ := rfl
  rcases foldl_bestOf_or (matchCandidates pop a a) ⟨0, 0, 0⟩ with hf | hf
  · have hm : coreBest pop a a = ⟨0, 0, 0⟩ := hf
    have hb : backExt a a (⟨0, 0, 0⟩ : LMatch) = 0 := by
      simp [backExt, commonLen_nil_left]
    have hfwd : fwdExt a a (⟨0, 0, 0⟩ : LMatch) = a.length := by
      simp [fwdExt, commonLen_self]
    rw [hexp, hm, hb, hfwd]
    simp
  · have hmem : coreBest pop a a ∈ matchCandidates pop a a := hf
    obtain ⟨hi, hj, hsz⟩ := mem_matchCandidates hmem
    have hsize_le : (coreBest pop a a).i + (coreBest pop a a).size ≤ a.length := by
      have h1 := commonLenNP_le_left pop (a.drop (coreBest pop a a).i)
        (a.drop (coreBest pop a a).j)
      rw [← hsz, List.length_drop] at h1
      omega
    have hji : (coreBest pop a a).j = (coreBest pop a a).i := hdiag.symm
    have hb : backExt a a (coreBest pop a a) = (coreBest pop a a).i := by
      rw [backExt, hji, commonLen_self, List.length_reverse, List.length_take]
      omega
    have hfwd : fwdExt a a (coreBest pop a a)
        = a.length - ((coreBest pop a a).i + (coreBest pop a a).size) := by
      rw [fwdExt, hji, commonLen_self, List.length_drop]
    rw [hexp, hb, hfwd, hji]
    simp only [LMatch.mk.injEq]
    refine ⟨by omega, by omega, by omega⟩

theorem matchTotal_nil_nil (pop : Char → Bool) : matchTotal pop [] [] = 0 := by
  rw [matchTotal, dif_pos]
  rfl

theorem matchTotal_self (pop : Char → Bool) (a : List Char) :
    matchTotal pop a a = a.length := by
  by_cases ha : a = []
  · subst ha
    rw [matchTotal_nil_nil]
    rfl
  · have hm := findLongestMatch_self pop a
    have hlen : 0 < a.length := List.length_pos.mpr ha
    have hsz : (findLongestMatch pop a a).size = a.length := by rw [hm]
    rw [matchTotal, dif_neg (by rw [hsz]; omega)]
    rw [hm]
    simp [matchTotal_nil_nil, List.drop_length]

theorem ratio_self (a : List Char) : ratio a a = 1 := by
  unfold ratio
  by_cases h : a.length + a.length = 0
  · rw [if_pos h]
  · rw [if_neg h, matchTotal_self]
    have hlen0 : a.length ≠ 0 := by omega
    have hpos : (0 : ℚ) < (a.length : ℚ) := by
      exact_mod_cast Nat.pos_of_ne_zero hlen0
    rw [div_eq_one_iff_eq (by linarith)]
    ring

theorem commonLen_eq_zero_of_disjoint (x y : List Char) (h : ∀ c ∈ x, c ∉ y) :
    commonLen x y = 0 := by
  cases x with
  | nil => cases y <;> rfl
  | cons c xs =>
    cases y with
    | nil => rfl
    | cons d ys =>
      rw [commonLen, if_neg]
      intro he
      subst he
      exact h c (by simp) (by simp)

theorem commonLenNP_eq_zero_of_disjoint (pop : Char → Bool) (x y : List Char)
    (h : ∀ c ∈ x, c ∉ y) : commonLenNP pop x y = 0 := by
  cases x with
  | nil => cases y <;> rfl
  | cons c xs =>
    cases y with
    | nil => rfl
    | cons d ys =>
      rw [commonLenNP, if_neg]
      rintro ⟨he1, -⟩
      subst he1
      exact h c (by simp) (by simp)

theorem matchTotal_disjoint (pop : Char → Bool) (a b : List Char)
    (h : ∀ c ∈ a, c ∉ b) : matchTotal pop a b = 0 := by
  have hcore : coreBest pop a b = ⟨0, 0, 0⟩ := by
    rw [coreBest]
    apply foldl_bestOf_keep
    intro m hm
    obtain ⟨hi, hj, hsz⟩ := mem_matchCandidates hm
    rw [hsz, commonLenNP_eq_zero_of_disjoint pop _ _ fun c hc hcb =>
      h c (List.drop_subset _ _ hc) (List.drop_subset _ _ hcb)]
  have hzero : (findLongestMatch pop a b).size = 0 := by
    show (coreBest pop a b).size + backExt a b (coreBest pop a b)
        + fwdExt a b (coreBest pop a b) = 0
    have hb : backExt a b (⟨0, 0, 0⟩ : LMatch) = 0 := by
      simp [backExt, commonLen_nil_left]
    have hf : fwdExt a b (⟨0, 0, 0⟩ : LMatch) = 0 := by
      have hab : commonLen a b = 0 := commonLen_eq_zero_of_disjoint a b h
      simp [fwdExt, hab]
    rw [hcore, hb, hf]
  rw [matchTotal, dif_pos hzero]

theorem ratio_disjoint (a b : List Char) (h : ∀ c ∈ a, c ∉ b)
    (hne : a.length + b.length ≠ 0) : ratio a b = 0 := by
  unfold ratio
  rw [if_neg hne, matchTotal_disjoint _ a b h]
  simp

theorem round4_zero : round4 0 = 0 := by
  rw [round4, roundHE_eq_of_lt_half (10000 * 0) 0 (by norm_num) (by norm_num)]
  norm_num

theorem round4_one : round4 1 = 1 := by
  rw [round4, roundHE_eq_of_lt_half (10000 * 1) 10000 (by norm_num) (by norm_num)]
  norm_num

theorem classifyChange_iff (m : ℚ) :
    (classifyChange m = .MINOR ↔ m < 5/100)
    ∧ (classifyChange m = .MODERATE ↔ (5/100 ≤ m ∧ m < 20/100))
    ∧ (classifyChange m = .MAJOR ↔ 20/100 ≤ m) := by
  unfold classifyChange
  split_ifs with h1 h2
  · exact ⟨iff_of_true rfl h1,
      iff_of_false (by decide) (fun hx => absurd h1 (not_lt.mpr hx.1)),
      iff_of_false (by decide) (fun hx => absurd h1 (not_lt.mpr (by linarith)))⟩
  · exact ⟨iff_of_false (by decide) (fun hx => h1 hx),
      iff_of_true rfl ⟨not_lt.mp h1, h2⟩,
      iff_of_false (by decide) (fun hx => absurd h2 (not_lt.mpr hx))⟩
  · exact ⟨iff_of_false (by decide) (fun hx => h1 hx),
      iff_of_false (by decide) (fun hx => h2 hx.2),
      iff_of_true rfl (not_lt.mp h2)⟩

/-- Claim C6 (amended) — `detect_policy_change` computes similarity as
the `SequenceMatcher` ratio with difflib's default junk handling
(including the autojunk popular-element purge for new texts of 200+
characters, and the block extension over any equal elements), reports
magnitude = round(1 − similarity, 4), and classifies the unrounded
magnitude as MINOR below 0.05, MODERATE below 0.20, MAJOR otherwise;
identical texts give magnitude 0.0 and MINOR (the extension phases match
the whole text even when every character is popular), and texts with no
common character give magnitude 1.0 and MAJOR. -/
theorem policy_change_classification (d1 d2 : String) (o n t : List Char) :
    ((detectPolicyChange d1 d2 o n).change_type = classifyChange (1 - ratio o n))
    ∧ ((detectPolicyChange d1 d2 o n).similarity_ratio = round4 (ratio o n))
    ∧ ((detectPolicyChange d1 d2 o n).change_magnitude = round4 (1 - ratio o n))
    ∧ ((detectPolicyChange d1 d2 o n).change_type = .MINOR ↔ 1 - ratio o n < 5/100)
    ∧ ((detectPolicyChange d1 d2 o n).change_type = .MODERATE ↔
        (5/100 ≤ 1 - ratio o n ∧ 1 - ratio o n < 20/100))
    ∧ ((detectPolicyChange d1 d2 o n).change_type = .MAJOR ↔ 20/100 ≤ 1 - ratio o n)
    ∧ ((detectPolicyChange d1 d2 t t).change_magnitude = 0
        ∧ (detectPolicyChange d1 d2 t t).change_type = .MINOR)
    ∧ ((detectPolicyChange d1 d2 ("abc".toList) ("xyz".toList)).change_magnitude = 1
        ∧ (detectPolicyChange d1 d2 ("abc".toList) ("xyz".toList)).change_type
            = .MAJOR) := by
  have hiff := classifyChange_iff (1 - ratio o n)
  refine ⟨rfl, rfl, rfl, hiff.1, hiff.2.1, hiff.2.2, ?_, ?_⟩
  · constructor
    · show round4 (1 - ratio t t) = 0
      rw [ratio_self, show (1 - 1 : ℚ) = 0 by norm_num, round4_zero]
    · show classifyChange (1 - ratio t t) = .MINOR
      rw [ratio_self, show (1 - 1 : ℚ) = 0 by norm_num]
      rw [classifyChange, if_pos (by norm_num)]
  · have hdisj : ratio ("abc".toList) ("xyz".toList) = 0 :=
      ratio_disjoint _ _ (by decide) (by decide)
    constructor
    · show round4 (1 - ratio ("abc".toList) ("xyz".toList)) = 1
      rw [hdisj, show (1 - 0 : ℚ) = 1 by norm_num, round4_one]
    · show classifyChange (1 - ratio ("abc".toList) ("xyz".toList)) = .MAJOR
      rw [hdisj, show (1 - 0 : ℚ) = 1 by norm_num]
      rw [classifyChange, if_neg (by norm_num), if_neg (by norm_num)]

/-- Counterexample to claim C6 as stated: for old text `"ab"` and new
text `"a"` the matcher ratio is `2/3`, so `1 − similarity = 1/3`, but
the record's change magnitude is the rounded `0.3333 = 3333/10000`,
which differs from `1/3` — the reported magnitude is
`round(1 − similarity, 4)` (`policy_sentinel.py:40`), not exactly
`1 − similarity`. -/
theorem policy_change_magnitude_rounding_counterexample :
    ratio ("ab".toList) ("a".toList) = 2/3
    ∧ (detectPolicyChange "P1" "P2" ("ab".toList) ("a".toList)).change_magnitude
        = 3333/10000
    ∧ (1 : ℚ) - ratio ("ab".toList) ("a".toList) = 1/3
    ∧ ((3333/10000 : ℚ) ≠ 1/3) := by
  have hflm : findLongestMatch (popularB ['a']) ['a', 'b'] ['a'] = ⟨0, 0, 1⟩ := by
    decide
  have hmtnil : matchTotal (popularB ['a']) [] [] = 0 := matchTotal_nil_nil _
  have hmt2 : matchTotal (popularB ['a']) ['b'] [] = 0 := by
    rw [matchTotal, dif_pos (by decide)]
  have hmt : matchTotal (popularB ['a']) ['a', 'b'] ['a'] = 1 := by
    rw [matchTotal, dif_neg (by decide)]
    rw [hflm]
    show matchTotal (popularB ['a']) [] [] + 1
        + matchTotal (popularB ['a']) ['b'] [] = 1
    rw [hmtnil, hmt2]
  have hr : ratio ("ab".toList) ("a".toList) = 2/3 := by
    rw [ratio, if_neg (by decide)]
    rw [show ("ab".toList) = ['a', 'b'] from rfl, show ("a".toList) = ['a'] from rfl]
    rw [hmt]
    norm_num
  have h13 : (1 : ℚ) - ratio ("ab".toList) ("a".toList) = 1/3 := by
    rw [hr]
    norm_num
  have hmag : (detectPolicyChange "P1" "P2" ("ab".toList) ("a".toList)).change_magnitude
      = round4 (1 - ratio ("ab".toList) ("a".toList)) := rfl
  have hround : round4 (1/3 : ℚ) = 3333/10000 := by
    rw [round4, roundHE_eq_of_lt_half (10000 * (1/3 : ℚ)) 3333 (by norm_num)
      (by norm_num)]
    norm_num
  refine ⟨hr, ?_, h13, by norm_num⟩
  rw [hmag, h13, hround]

end PolicyLens

namespace PolicyLens

/-! ## Impacted-decision lookup (`policy_sentinel.py:75-97`,
`main.py:244-252`, `storage_service.py`)

The decision store holds JSON documents.  `main.py` stores
`{"transaction": ..., "decision": <ComplianceDecision.model_dump()>,
"trace_id": ..., "processing_time_ms": ...}` (plus a `stored_at` stamp),
with the citations under `decision.policy_citations`.
`identify_impacted_decisions`, however, reads
`decision.get("reasoning", {}).get("citations", [])`.  A small JSON value
type makes both sides computable so the mismatch is a fact of the data,
not of the model. -/

inductive JVal
  | null
  | str (s : String)
  | num (q : ℚ)
  | arr (elems : List JVal)
  | obj (fields : List (String × JVal))

/-- Python's `d.get(key, default)` on a JSON object. -/
def jget (v : JVal) (key : String) (default : JVal) : JVal :=
  match v with
  | .obj fields =>
    match fields.find? (fun p => p.1 == key) with
    | some p => p.2
    | none => default
  | _ => default

/-- Read a JSON array as a list (a non-array reads as empty, matching the
`.get(..., [])` default in the caller). -/
def jarr (v : JVal) : List JVal :=
  match v with
  | .arr l => l
  | _ => []

/-- Python's `value == doc_id` for a string-typed `doc_id`. -/
def jisStr (v : JVal) (s : String) : Bool :=
  match v with
  | .str t => t == s
  | _ => false

/-- `PolicySentinel.identify_impacted_decisions`: for each stored
decision, scan `decision["reasoning"]["citations"]` for a citation whose
`doc_id` matches, and collect the decision's `trace_id`. -/
def identifyImpactedDecisions (decisions : List JVal) (doc_id : String) :
    List JVal :=
  decisions.filterMap fun d =>
    let citations := jarr (jget (jget d "reasoning" (.obj [])) "citations" (.arr []))
    if citations.any (fun c => jisStr (jget c "doc_id" .null) doc_id) then
      some (jget d "trace_id" .null)
    else none

def verdictStr : DecisionVerdict → String
  | .flag => "flag"
  | .needs_review => "needs_review"
  | .acceptable => "acceptable"

def riskLevelStr : RiskLevel → String
  | .high => "high"
  | .medium => "medium"
  | .low => "low"
  | .acceptable => "acceptable"

def encodeCitation (c : PolicyCitation) : JVal :=
  .obj [("doc_id", .str c.doc_id), ("doc_title", .str c.doc_title),
        ("section", match c.sectionLabel with | some s => .str s | none => .null),
        ("text", .str c.text), ("relevance_score", .num c.relevance_score),
        ("version", .str c.version)]

def encodeSimilarCase (c : SimilarCase) : JVal :=
  .obj [("case_id", .str c.case_id), ("transaction_id", .str c.transaction_id),
        ("similarity_score", .num c.similarity_score),
        ("decision", .str (verdictStr c.decision)),
        ("reasoning", .str c.reasoning), ("timestamp", .str c.timestamp)]

/-- `ComplianceDecision.model_dump()`. -/
def encodeDecision (d : ComplianceDecision) : JVal :=
  .obj [("transaction_id", .str d.transaction_id),
        ("verdict", .str (verdictStr d.verdict)),
        ("risk_level", .str (riskLevelStr d.risk_level)),
        ("risk_score", .num d.risk_score),
        ("reasoning", .str d.reasoning),
        ("policy_citations", .arr (d.policy_citations.map encodeCitation)),
        ("similar_cases", .arr (d.similar_cases.map encodeSimilarCase)),
        ("confidence", .num d.confidence)]

def encodeTransaction (tx : Transaction) : JVal :=
  .obj [("transaction_id", .str tx.transaction_id), ("amount", .num tx.amount),
        ("currency", .str tx.currency), ("sender", .str tx.sender),
        ("receiver", .str tx.receiver)]

/-- The decision record written by the evaluation endpoint
(`main.py:244-252`), as `store_decision` persists it (with its
`stored_at` stamp). -/
def storedDecisionJson (tx : Transaction) (d : ComplianceDecision)
    (trace_id : String) (ptime : ℚ) (stored_at : String) : JVal :=
  .obj [("transaction", encodeTransaction tx),
        ("decision", encodeDecision d),
        ("trace_id", .str trace_id),
        ("processing_time_ms", .num ptime),
        ("stored_at", .str stored_at)]

def citD1 : PolicyCitation :=
  { doc_id := "D1", doc_title := "AML Policy", sectionLabel := none
    text := "Report transactions above the threshold."
    relevance_score := 9/10, version := "1.0" }

def decD1 : ComplianceDecision :=
  { transaction_id := "TX1", verdict := .flag, risk_level := .high
    risk_score := 1/2, reasoning := "cited AML policy"
    policy_citations := [citD1], similar_cases := [], confidence := 1/2 }

def storeC7 : List JVal := [storedDecisionJson sampleTx decD1 "trace-1" 10 "2026-01-01"]

/-- Claim C7 (code bug) — a stored decision whose
`decision.policy_citations` cites document "D1" is *not* returned by
`identify_impacted_decisions("D1")`: the lookup reads
`decision["reasoning"]["citations"]`, a key the evaluation path never
writes (the stored `reasoning` is a string inside `"decision"`), so the
scan always sees an empty citation list and returns no ids — the claimed
"if and only if" fails in the only-if-relevant direction for every store
written by the evaluation path. -/
theorem impacted_lookup_code_bug :
    identifyImpactedDecisions storeC7 "D1" = []
    ∧ (jarr (jget (jget (storedDecisionJson sampleTx decD1 "trace-1" 10 "2026-01-01")
          "decision" (.obj [])) "policy_citations" (.arr []))).any
        (fun c => jisStr (jget c "doc_id" .null) "D1") = true
    ∧ (jget (jget (storedDecisionJson sampleTx decD1 "trace-1" 10 "2026-01-01")
          "reasoning" (.obj [])) "citations" (.arr [])) = .arr [] := by
  refine ⟨rfl, rfl, rfl⟩

end PolicyLens
